import Mathlib

/-! # bigbluebutton-bot: signed REST requests and the join/leave sequence

A shallow embedding of `api/api.go` (request construction, query building,
checksums, URL building) and of `bot.go` (`Client.Join`, `Client.Leave`),
followed by the properties proved about them.

Go strings are byte sequences, so a Go `string` is a `List Byte` here. The
pieces of the Go standard library that the code calls (`strings`, `net/url`,
`unicode/utf8`, `encoding/hex`, `crypto/sha1`, `crypto/sha256`) are modelled
as executable functions on byte lists.
-/

set_option linter.unusedVariables false
set_option maxRecDepth 1000000

/-! ## Go strings -/

/-- A Go `byte`. -/
abbrev Byte := Fin 256

/-- A Go `string`: an immutable sequence of bytes. -/
abbrev GoString := List Byte

/-- Truncation of an integer to a byte. -/
def byteOfNat (n : Nat) : Byte := ⟨n % 256, Nat.mod_lt _ (by decide)⟩

/-- UTF-8 encoding of one code point, as the Go compiler stores a character of
a string literal. -/
def utf8EncodeRune (v : Nat) : List Byte :=
  if v ≤ 0x7f then [byteOfNat v]
  else if v ≤ 0x7ff then [byteOfNat (0xc0 ||| (v >>> 6)), byteOfNat (0x80 ||| (v &&& 0x3f))]
  else if v ≤ 0xffff then
    [byteOfNat (0xe0 ||| (v >>> 12)), byteOfNat (0x80 ||| ((v >>> 6) &&& 0x3f)),
     byteOfNat (0x80 ||| (v &&& 0x3f))]
  else
    [byteOfNat (0xf0 ||| (v >>> 18)), byteOfNat (0x80 ||| ((v >>> 12) &&& 0x3f)),
     byteOfNat (0x80 ||| ((v >>> 6) &&& 0x3f)), byteOfNat (0x80 ||| (v &&& 0x3f))]

/-- The bytes of a Go string literal. -/
def goString (s : String) : GoString := s.data.flatMap (fun c => utf8EncodeRune c.toNat)

/-! ## package strings -/

namespace strings

/-- Go: `len(s) >= len(prefix) && s[:len(prefix)] == prefix`. -/
def HasPrefix (s pre : GoString) : Bool :=
  decide (pre.length ≤ s.length) && (s.take pre.length == pre)

/-- Go: `len(s) >= len(suffix) && s[len(s)-len(suffix):] == suffix`. -/
def HasSuffix (s suf : GoString) : Bool :=
  decide (suf.length ≤ s.length) && (s.drop (s.length - suf.length) == suf)

end strings

/-! ## package unicode/utf8 -/

namespace utf8

/-- Width in bytes of the first rune of a non-empty string whose first byte
is `s0` and whose remaining bytes are `rest`, as computed by
`utf8.DecodeRuneInString` (table `first` and `acceptRanges`): an invalid or
truncated sequence decodes as `RuneError` of width 1. -/
def runeWidth (s0 : Byte) (rest : GoString) : Nat :=
  let cont (b : Byte) : Bool := 0x80 ≤ b.val && b.val ≤ 0xBF
  -- (size, lo, hi) for the lead byte; size 1 is ASCII or invalid
  let info : Nat × Nat × Nat :=
    if s0.val < 0xC2 then (1, 0, 0)
    else if s0.val ≤ 0xDF then (2, 0x80, 0xBF)
    else if s0.val = 0xE0 then (3, 0xA0, 0xBF)
    else if s0.val = 0xED then (3, 0x80, 0x9F)
    else if s0.val ≤ 0xEF then (3, 0x80, 0xBF)
    else if s0.val = 0xF0 then (4, 0x90, 0xBF)
    else if s0.val ≤ 0xF3 then (4, 0x80, 0xBF)
    else if s0.val = 0xF4 then (4, 0x80, 0x8F)
    else (1, 0, 0)
  let sz := info.1
  if sz = 1 then 1
  else if rest.length + 1 < sz then 1
  else
    match rest with
    | [] => 1
    | s1 :: r1 =>
      if s1.val < info.2.1 || info.2.2 < s1.val then 1
      else if sz ≤ 2 then 2
      else
        match r1 with
        | [] => 1
        | s2 :: r2 =>
          if !cont s2 then 1
          else if sz ≤ 3 then 3
          else
            match r2 with
            | [] => 1
            | s3 :: _ => if !cont s3 then 1 else 4

/-- Number of runes of the string that remains once `skip` more bytes of the
rune being read have been consumed. -/
def runeCountFrom : Nat → GoString → Nat
  | _, [] => 0
  | 0, c :: rest => 1 + runeCountFrom (runeWidth c rest - 1) rest
  | skip + 1, _ :: rest => runeCountFrom skip rest

/-- Go: `utf8.RuneCountInString(s)`, which is also `len([]rune(s))`. -/
def RuneCountInString (s : GoString) : Nat := runeCountFrom 0 s

end utf8

namespace strings

/-- Number of non-overlapping instances of the non-empty `sep` in the rest of
the string, `skip` bytes of which belong to an instance already counted. -/
def countFrom (sep : GoString) : Nat → GoString → Nat
  | _, [] => 0
  | 0, c :: rest =>
    if HasPrefix (c :: rest) sep then 1 + countFrom sep (sep.length - 1) rest
    else countFrom sep 0 rest
  | skip + 1, _ :: rest => countFrom sep skip rest

/-- Go: `strings.Count(s, substr)`; for an empty `substr` it is the number of
runes plus one. -/
def Count (s substr : GoString) : Nat :=
  if substr.length = 0 then utf8.RuneCountInString s + 1 else countFrom substr 0 s

/-- Replacement of every instance of the non-empty `old`, scanning from the
left; `skip` bytes still belong to the instance just replaced. -/
def replaceFrom (old new : GoString) : Nat → GoString → GoString
  | _, [] => []
  | 0, c :: rest =>
    if HasPrefix (c :: rest) old then new ++ replaceFrom old new (old.length - 1) rest
    else c :: replaceFrom old new 0 rest
  | skip + 1, _ :: rest => replaceFrom old new skip rest

/-- Replacement of the empty string: `new` goes after every rune (the caller
puts one in front). The counter is 0 at the first byte of a rune and otherwise
the number of bytes of the current rune still to be copied. -/
def insertFrom (new : GoString) : Nat → GoString → GoString
  | _, [] => []
  | 0, c :: rest =>
    if utf8.runeWidth c rest ≤ 1 then c :: (new ++ insertFrom new 0 rest)
    else c :: insertFrom new (utf8.runeWidth c rest - 1) rest
  | 1, c :: rest => c :: (new ++ insertFrom new 0 rest)
  | more + 2, c :: rest => c :: insertFrom new (more + 1) rest

/-- Go: `strings.ReplaceAll(s, old, new)`, that is `Replace(s, old, new, -1)`:
`s` itself when `old == new` or when `old` does not occur, otherwise `s` with
every non-overlapping instance of `old` replaced by `new`. -/
def ReplaceAll (s old new : GoString) : GoString :=
  if old = new then s
  else if Count s old = 0 then s
  else if old.length = 0 then new ++ insertFrom new 0 s
  else replaceFrom old new 0 s

end strings

/-! ## package net/url -/

namespace url

/-- Go: `shouldEscape(c, encodeQueryComponent)`. Letters, digits and the
marks `-_.~` stay; the reserved characters and everything else are escaped. -/
def shouldEscape (c : Byte) : Bool :=
  if (97 ≤ c.val && c.val ≤ 122) || (65 ≤ c.val && c.val ≤ 90) || (48 ≤ c.val && c.val ≤ 57) then
    false
  else if c.val = 45 || c.val = 95 || c.val = 46 || c.val = 126 then
    false
  else
    true

/-- Go: `const upperhex = "0123456789ABCDEF"`. -/
def upperhex : GoString := goString "0123456789ABCDEF"

/-- Go: `escape(s, encodeQueryComponent)`. It counts the spaces and the bytes
to be written in hexadecimal, returns `s` when there are none, only swaps
spaces for `+` when nothing needs hexadecimal, and otherwise rewrites the
string byte by byte. -/
def escape (s : GoString) : GoString :=
  let spaceCount := (s.filter (fun c => shouldEscape c && c == 32)).length
  let hexCount := (s.filter (fun c => shouldEscape c && c != 32)).length
  if spaceCount = 0 ∧ hexCount = 0 then s
  else if hexCount = 0 then s.map (fun c => if c = 32 then 43 else c)
  else
    s.flatMap (fun c =>
      if c = 32 then [43]
      else if shouldEscape c then
        [37, upperhex.getD (c.val >>> 4) 0, upperhex.getD (c.val &&& 15) 0]
      else [c])

/-- Go: `url.QueryEscape(s)`. -/
def QueryEscape (s : GoString) : GoString := escape s

end url

/-! ## package encoding/hex -/

namespace hex

/-- Go: `const hextable = "0123456789abcdef"`. -/
def hextable : GoString := goString "0123456789abcdef"

/-- Go: `hex.EncodeToString(src)`: two table digits per byte, high nibble
first. -/
def EncodeToString (src : List Byte) : GoString :=
  src.flatMap (fun v => [hextable.getD (v.val >>> 4) 0, hextable.getD (v.val &&& 0x0f) 0])

end hex

/-! ## packages crypto/sha1 and crypto/sha256 (FIPS 180-4)

32-bit words are natural numbers reduced modulo `2^32`. -/

namespace sha

/-- Reduction to a 32-bit word. -/
def w32 (n : Nat) : Nat := n % 4294967296

/-- Rotate a 32-bit word left by `k` bits. -/
def rotl32 (x k : Nat) : Nat := w32 ((x <<< k) ||| (x >>> (32 - k)))

/-- Rotate a 32-bit word right by `k` bits. -/
def rotr32 (x k : Nat) : Nat := w32 ((x >>> k) ||| (x <<< (32 - k)))

/-- Big-endian 32-bit words of a block. -/
def wordsOfBytes : List Byte → List Nat
  | a :: b :: c :: d :: rest =>
    (a.val * 16777216 + b.val * 65536 + c.val * 256 + d.val) :: wordsOfBytes rest
  | _ => []

/-- Big-endian bytes of a 32-bit word. -/
def bytesOfWord (w : Nat) : List Byte :=
  [byteOfNat (w >>> 24), byteOfNat (w >>> 16), byteOfNat (w >>> 8), byteOfNat w]

/-- Big-endian bytes of a 64-bit length. -/
def be64 (n : Nat) : List Byte :=
  [byteOfNat (n >>> 56), byteOfNat (n >>> 48), byteOfNat (n >>> 40), byteOfNat (n >>> 32),
   byteOfNat (n >>> 24), byteOfNat (n >>> 16), byteOfNat (n >>> 8), byteOfNat n]

/-- Message padding: a `0x80` byte, zeros up to 56 modulo 64, then the bit
length on 64 bits. -/
def pad (msg : List Byte) : List Byte :=
  msg ++ [(0x80 : Byte)] ++ List.replicate ((119 - msg.length % 64) % 64) (0 : Byte)
    ++ be64 (8 * msg.length)

/-- The first `n` 64-byte blocks of a padded message. -/
def blocks : Nat → List Byte → List (List Byte)
  | 0, _ => []
  | n + 1, bs => bs.take 64 :: blocks n (bs.drop 64)

/-- The SHA-256 round constants. -/
def sha256K : List Nat := [
  0x428A2F98, 0x71374491, 0xB5C0FBCF, 0xE9B5DBA5, 0x3956C25B, 0x59F111F1, 0x923F82A4, 0xAB1C5ED5,
  0xD807AA98, 0x12835B01, 0x243185BE, 0x550C7DC3, 0x72BE5D74, 0x80DEB1FE, 0x9BDC06A7, 0xC19BF174,
  0xE49B69C1, 0xEFBE4786, 0x0FC19DC6, 0x240CA1CC, 0x2DE92C6F, 0x4A7484AA, 0x5CB0A9DC, 0x76F988DA,
  0x983E5152, 0xA831C66D, 0xB00327C8, 0xBF597FC7, 0xC6E00BF3, 0xD5A79147, 0x06CA6351, 0x14292967,
  0x27B70A85, 0x2E1B2138, 0x4D2C6DFC, 0x53380D13, 0x650A7354, 0x766A0ABB, 0x81C2C92E, 0x92722C85,
  0xA2BFE8A1, 0xA81A664B, 0xC24B8B70, 0xC76C51A3, 0xD192E819, 0xD6990624, 0xF40E3585, 0x106AA070,
  0x19A4C116, 0x1E376C08, 0x2748774C, 0x34B0BCB5, 0x391C0CB3, 0x4ED8AA4A, 0x5B9CCA4F, 0x682E6FF3,
  0x748F82EE, 0x78A5636F, 0x84C87814, 0x8CC70208, 0x90BEFFFA, 0xA4506CEB, 0xBEF9A3F7, 0xC67178F2]

/-- SHA-256 message schedule, `n` more words; `ws` is the schedule so far,
latest word first. -/
def sha256Extend : Nat → List Nat → List Nat
  | 0, ws => ws
  | n + 1, ws =>
    match ws with
    | _ :: w2 :: _ :: _ :: _ :: _ :: w7 :: _ :: _ :: _ :: _ :: _ :: _ :: _ :: w15 :: w16 :: _ =>
      let s0 := rotr32 w15 7 ^^^ rotr32 w15 18 ^^^ (w15 >>> 3)
      let s1 := rotr32 w2 17 ^^^ rotr32 w2 19 ^^^ (w2 >>> 10)
      sha256Extend n (w32 (w16 + s0 + w7 + s1) :: ws)
    | _ => ws

/-- The eight working variables of SHA-256. -/
structure State256 where
  a : Nat
  b : Nat
  c : Nat
  d : Nat
  e : Nat
  f : Nat
  g : Nat
  h : Nat

/-- One SHA-256 round with constant `kw.1` and schedule word `kw.2`. -/
def sha256Round (s : State256) (kw : Nat × Nat) : State256 :=
  let S1 := rotr32 s.e 6 ^^^ rotr32 s.e 11 ^^^ rotr32 s.e 25
  let ch := (s.e &&& s.f) ^^^ ((s.e ^^^ 0xFFFFFFFF) &&& s.g)
  let t1 := w32 (s.h + S1 + ch + kw.1 + kw.2)
  let S0 := rotr32 s.a 2 ^^^ rotr32 s.a 13 ^^^ rotr32 s.a 22
  let maj := (s.a &&& s.b) ^^^ (s.a &&& s.c) ^^^ (s.b &&& s.c)
  let t2 := w32 (S0 + maj)
  ⟨w32 (t1 + t2), s.a, s.b, s.c, w32 (s.d + t1), s.e, s.f, s.g⟩

/-- SHA-256 compression of one block. -/
def sha256Block (s : State256) (blk : List Byte) : State256 :=
  let w := (sha256Extend 48 (wordsOfBytes blk).reverse).reverse
  let r := (sha256K.zip w).foldl sha256Round s
  ⟨w32 (s.a + r.a), w32 (s.b + r.b), w32 (s.c + r.c), w32 (s.d + r.d),
   w32 (s.e + r.e), w32 (s.f + r.f), w32 (s.g + r.g), w32 (s.h + r.h)⟩

/-- The SHA-256 initial hash value. -/
def sha256Init : State256 :=
  ⟨0x6A09E667, 0xBB67AE85, 0x3C6EF372, 0xA54FF53A, 0x510E527F, 0x9B05688C, 0x1F83D9AB, 0x5BE0CD19⟩

/-- Go: `h := sha256.New(); h.Write(msg); h.Sum(nil)`: the 32-byte digest. -/
def sha256Sum (msg : List Byte) : List Byte :=
  let p := pad msg
  let r := (blocks (p.length / 64) p).foldl sha256Block sha256Init
  bytesOfWord r.a ++ bytesOfWord r.b ++ bytesOfWord r.c ++ bytesOfWord r.d ++
  bytesOfWord r.e ++ bytesOfWord r.f ++ bytesOfWord r.g ++ bytesOfWord r.h

/-- SHA-1 message schedule, `n` more words; `ws` is the schedule so far,
latest word first. -/
def sha1Extend : Nat → List Nat → List Nat
  | 0, ws => ws
  | n + 1, ws =>
    match ws with
    | _ :: _ :: w3 :: _ :: _ :: _ :: _ :: w8 :: _ :: _ :: _ :: _ :: _ :: w14 :: _ :: w16 :: _ =>
      sha1Extend n (rotl32 (w3 ^^^ w8 ^^^ w14 ^^^ w16) 1 :: ws)
    | _ => ws

/-- The five working variables of SHA-1. -/
structure State1 where
  a : Nat
  b : Nat
  c : Nat
  d : Nat
  e : Nat

/-- One SHA-1 round: `tw.1` is the round number, `tw.2` the schedule word. -/
def sha1Round (s : State1) (tw : Nat × Nat) : State1 :=
  let fk : Nat × Nat :=
    if tw.1 < 20 then ((s.b &&& s.c) ||| ((s.b ^^^ 0xFFFFFFFF) &&& s.d), 0x5A827999)
    else if tw.1 < 40 then (s.b ^^^ s.c ^^^ s.d, 0x6ED9EBA1)
    else if tw.1 < 60 then ((s.b &&& s.c) ||| (s.b &&& s.d) ||| (s.c &&& s.d), 0x8F1BBCDC)
    else (s.b ^^^ s.c ^^^ s.d, 0xCA62C1D6)
  ⟨w32 (rotl32 s.a 5 + fk.1 + s.e + fk.2 + tw.2), s.a, rotl32 s.b 30, s.c, s.d⟩

/-- SHA-1 compression of one block. -/
def sha1Block (s : State1) (blk : List Byte) : State1 :=
  let w := (sha1Extend 64 (wordsOfBytes blk).reverse).reverse
  let r := ((List.range 80).zip w).foldl sha1Round s
  ⟨w32 (s.a + r.a), w32 (s.b + r.b), w32 (s.c + r.c), w32 (s.d + r.d), w32 (s.e + r.e)⟩

/-- The SHA-1 initial hash value. -/
def sha1Init : State1 := ⟨0x67452301, 0xEFCDAB89, 0x98BADCFE, 0x10325476, 0xC3D2E1F0⟩

/-- Go: `h := sha1.New(); h.Write(msg); h.Sum(nil)`: the 20-byte digest. -/
def sha1Sum (msg : List Byte) : List Byte :=
  let p := pad msg
  let r := (blocks (p.length / 64) p).foldl sha1Block sha1Init
  bytesOfWord r.a ++ bytesOfWord r.b ++ bytesOfWord r.c ++ bytesOfWord r.d ++ bytesOfWord r.e

end sha

/-! ## package errors -/

/-- A Go `error` value, identified by its message. -/
structure GoError where
  msg : GoString
deriving DecidableEq

namespace errors

/-- Go: `errors.New(text)`. -/
def New (text : GoString) : GoError := ⟨text⟩

end errors

/-! ## package api (`api/api.go`) -/

namespace api

/-- Go: `type SHA string`. -/
abbrev SHA := GoString

/-- Go: `SHA1 SHA = "SHA1"`. -/
def SHA1 : SHA := goString "SHA1"

/-- Go: `SHA256 SHA = "SHA256"`. -/
def SHA256 : SHA := goString "SHA256"

/-- Go: `type ApiRequest struct`. -/
structure ApiRequest where
  Url : GoString
  Secret : GoString
  Shatype : SHA
deriving DecidableEq

/-- Go: `ApiRequest{}`, every field the empty string. -/
def ApiRequest.zero : ApiRequest := ⟨[], [], []⟩

/-- Go: `func NewRequest(url string, secret string, shatype SHA) (*ApiRequest, error)`.
The result is the request pointed to and the error (`none` for `nil`). -/
def NewRequest (url : GoString) (secret : GoString) (shatype : SHA) :
    ApiRequest × Option GoError :=
  let shatype := if shatype = SHA1 then shatype else if shatype = SHA256 then shatype else SHA256
  if !(strings.HasPrefix url (goString "http://") || strings.HasPrefix url (goString "https://")) then
    (ApiRequest.zero,
      some (errors.New (goString
        "url has the wrong format. It should look like this: https://example.com/api/")))
  else
    let url := if !strings.HasSuffix url (goString "/") then url ++ goString "/" else url
    let url := if !strings.HasSuffix url (goString "api/") then url ++ goString "api/" else url
    ({ Url := url, Secret := secret, Shatype := shatype }, none)

/-- Go: `type action string`. -/
abbrev action := GoString

/-- Go: `CREATE action = "create"`. -/
def CREATE : action := goString "create"

/-- Go: `type ParamName string`. -/
abbrev ParamName := GoString

/-- Go: `type Params struct`. -/
structure Params where
  Name : ParamName
  Value : GoString
deriving DecidableEq

/-- One iteration of the loop of `buildParams`: `st.1` is `count`, `st.2` is
`param`. -/
def buildParamsStep (st : Nat × GoString) (p : Params) : Nat × GoString :=
  let name := url.QueryEscape p.Name
  let Value := url.QueryEscape p.Value
  if st.1 = 0 then (st.1 + 1, name ++ goString "=" ++ Value)
  else (st.1 + 1, st.2 ++ goString "&" ++ name ++ goString "=" ++ Value)

/-- Go: `func (api *ApiRequest) buildParams(Params ...Params) string`. -/
def ApiRequest.buildParams (api : ApiRequest) (ps : List Params) : GoString :=
  let param := (ps.foldl buildParamsStep (0, [])).2
  strings.ReplaceAll param (url.QueryEscape (goString " ")) (goString "+")

/-- Go: `func (api ApiRequest) generateChecksumSHA256(action action, params string) string`. -/
def ApiRequest.generateChecksumSHA256 (api : ApiRequest) (act : action) (params : GoString) :
    GoString :=
  hex.EncodeToString (sha.sha256Sum (act ++ params ++ api.Secret))

/-- Go: `func (api *ApiRequest) generateChecksumSHA1(action action, params string) string`. -/
def ApiRequest.generateChecksumSHA1 (api : ApiRequest) (act : action) (params : GoString) :
    GoString :=
  hex.EncodeToString (sha.sha1Sum (act ++ params ++ api.Secret))

/-- Go: `func (api *ApiRequest) generateChecksum(action action, params string) string`. -/
def ApiRequest.generateChecksum (api : ApiRequest) (act : action) (params : GoString) :
    GoString :=
  if api.Shatype = SHA1 then api.generateChecksumSHA1 act params
  else api.generateChecksumSHA256 act params

/-- Go: `func (api *ApiRequest) buildURL(action action, params ...params) string`. -/
def ApiRequest.buildURL (api : ApiRequest) (act : action) (ps : List Params) : GoString :=
  let param := api.buildParams ps
  let checksum := api.generateChecksum act param
  if utf8.RuneCountInString param > 0 then
    api.Url ++ act ++ goString "?" ++ param ++ goString "&checksum=" ++ checksum
  else
    api.Url ++ act ++ goString "?checksum=" ++ checksum

end api

/-! ## package ddp (the real-time protocol client used by `bot.go`) -/

namespace ddp

/-- Modelled from the spec: the `ddp` package is not among the sources. Of a
`ddp.Client` only what the spec's Connection and Subscription Registry
promise is kept: whether a connection is open (`connect` opens it, `close()`
releases the transport) and the names of the standing subscriptions (created
on subscribe, destroyed on unsubscribe or connection teardown). -/
structure Client where
  isOpen : Bool
  subs : List GoString
deriving DecidableEq

/-- Modelled from the spec: `ddp.NewClient(url, origin)` builds a client that
is not connected yet and has no subscription. -/
def NewClient (url origin : GoString) : Client := ⟨false, []⟩

/-- Modelled from the spec: `Connect()` opens the connection when it
succeeds (`err = none`) and leaves the client as it was when it fails. -/
def Client.Connect (d : Client) (err : Option GoError) : Client :=
  match err with
  | none => { d with isOpen := true }
  | some _ => d

/-- Modelled from the spec: `Sub(name)` registers a subscription when it
succeeds and none when it fails. -/
def Client.Sub (d : Client) (name : GoString) (err : Option GoError) : Client :=
  match err with
  | none => { d with subs := d.subs ++ [name] }
  | some _ => d

/-- Modelled from the spec: `Close()` releases the transport; connection
teardown destroys every subscription. -/
def Client.Close (d : Client) : Client := ⟨false, []⟩

end ddp

/-! ## package bot (`bot.go`) -/

namespace bot

/-- Go: `type StatusType string`. -/
abbrev StatusType := GoString

/-- Go: `DISCONNECTING StatusType = "disconnecting"`. -/
def DISCONNECTING : StatusType := goString "disconnecting"

/-- Go: `DISCONNECTED StatusType = "disconnected"`. -/
def DISCONNECTED : StatusType := goString "disconnected"

/-- Go: `CONNECTING StatusType = "connecting"`. -/
def CONNECTING : StatusType := goString "connecting"

/-- Go: `CONNECTED StatusType = "connected"`. -/
def CONNECTED : StatusType := goString "connected"

/-- Go: `RECONNECTING StatusType = "reconnecting"`. -/
def RECONNECTING : StatusType := goString "reconnecting"

/-- Go: `type Client struct`. `ddpClient` is a pointer that `Leave` sets to
`nil` (`none`); a cookie is kept as an uninterpreted string. The two fields
that hold callbacks (`events`, `eventDDPHandler`) are read by neither `Join`
nor `Leave` and are left out. -/
structure Client where
  Status : StatusType
  ClientURL : GoString
  ClientWSURL : GoString
  PadURL : GoString
  PadWSURL : GoString
  ApiURL : GoString
  apiSecret : GoString
  API : api.ApiRequest
  ddpClient : Option ddp.Client
  JoinURL : GoString
  SessionCookie : List GoString
  InternalUserID : GoString
  AuthToken : GoString
  SessionToken : GoString
  InternalMeetingID : GoString
deriving DecidableEq

/-- Go: `func NewClient(clientURL, clientWSURL, padURL, padWSURL, apiURL, apiSecret string) (*Client, error)`. -/
def NewClient (clientURL clientWSURL padURL padWSURL apiURL apiSecret : GoString) :
    Option Client × Option GoError :=
  let r := api.NewRequest apiURL apiSecret api.SHA256
  match r.2 with
  | some err => (none, some err)
  | none =>
    (some {
      Status := DISCONNECTED
      ClientURL := clientURL
      ClientWSURL := clientWSURL
      PadURL := padURL
      PadWSURL := padWSURL
      ApiURL := apiURL
      apiSecret := apiSecret
      API := r.1
      ddpClient := some (ddp.NewClient clientWSURL clientURL)
      JoinURL := []
      SessionCookie := []
      InternalUserID := []
      AuthToken := []
      SessionToken := []
      InternalMeetingID := [] }, none)

/-- What `Join` and `Leave` do to the outside, in program order. `poll` marks
one evaluation of the loop test `c.Status == CONNECTED` inside `Leave`. -/
inductive Event where
  | apiJoin (meetingID userName : GoString) (moderator : Bool)
  | connect
  | sub (name : GoString)
  | call (method : GoString) (args : List GoString)
  | close
  | poll
  | sleep (seconds : Nat)
deriving DecidableEq

/-- The seven values returned by `c.API.Join`, a method of the `api` package
that is not among the sources. -/
structure JoinResult where
  joinURL : GoString
  cookie : List GoString
  internalUserID : GoString
  authToken : GoString
  sessionToken : GoString
  internalMeetingID : GoString
  err : Option GoError

/-- The collaborators of the client: the answer of the REST join, the
outcomes of the `ddp` operations (`none` for a `nil` error), and what the
other goroutines assign to `c.Status` while `Leave` sleeps: `statusWrite k`
is the value stored during the `k`-th second, if any. -/
structure Env where
  apiJoin : GoString → GoString → Bool → JoinResult
  connect : Option GoError
  sub : GoString → Option GoError
  call : GoString → List GoString → Option GoError
  statusWrite : Nat → Option StatusType

/-- The client together with the record of its actions and the number of
seconds slept so far. -/
structure World where
  c : Client
  trace : List Event
  clock : Nat
deriving DecidableEq

/-- How a call ends: it returns an error value (`none` for `nil`), or it
panics because a method of the `ddp` client is called while `ddpClient` is
`nil`. -/
inductive Outcome where
  | returned (err : Option GoError)
  | panicked
deriving DecidableEq

/-- Append an event to the record. -/
def World.log (w : World) (e : Event) : World := { w with trace := w.trace ++ [e] }

/-- Go: `func (c *Client) Join(meetingID string, userName string, moderator bool) error`. -/
def Join (env : Env) (w : World) (meetingID userName : GoString) (moderator : Bool) :
    World × Outcome :=
  let r := env.apiJoin meetingID userName moderator
  let w := w.log (Event.apiJoin meetingID userName moderator)
  let w := { w with c := { w.c with
    JoinURL := r.joinURL
    SessionCookie := r.cookie
    InternalUserID := r.internalUserID
    AuthToken := r.authToken
    SessionToken := r.sessionToken
    InternalMeetingID := r.internalMeetingID } }
  match r.err with
  | some err => (w, Outcome.returned (some err))
  | none =>
    match w.c.ddpClient with
    | none => (w, Outcome.panicked)
    | some d =>
      let w := { w.log Event.connect with
        c := { w.c with ddpClient := some (d.Connect env.connect) } }
      match env.connect with
      | some err => (w, Outcome.returned (some err))
      | none =>
        let d := d.Connect env.connect
        let w := { w.log (Event.sub (goString "current-user")) with
          c := { w.c with
            ddpClient := some (d.Sub (goString "current-user") (env.sub (goString "current-user"))) } }
        match env.sub (goString "current-user") with
        | some _ => (w, Outcome.returned (some (errors.New (goString "could sub current-user"))))
        | none =>
          let args := [r.internalMeetingID, r.internalUserID, r.authToken, r.internalUserID]
          let w := w.log (Event.call (goString "validateAuthToken") args)
          match env.call (goString "validateAuthToken") args with
          | some _ =>
            (w, Outcome.returned (some (errors.New (goString "could not validateAuthToken"))))
          | none => (w, Outcome.returned none)

/-- Go: `time.Sleep(time.Second * 1)`: one second passes, during which another
goroutine may assign `c.Status`. -/
def sleepSecond (env : Env) (w : World) : World :=
  { c := match env.statusWrite w.clock with
      | some s => { w.c with Status := s }
      | none => w.c
    trace := w.trace ++ [Event.sleep 1]
    clock := w.clock + 1 }

/-- The error `Leave` returns when the client is in no meeting. -/
def notInMeeting : GoError :=
  errors.New (goString
    "Client is in no meeting. First Join a meeting with: client.Join(meetingID string, userName string, moderator bool)")

/-- The loop `for i < 5 { if c.Status == CONNECTED { c.Leave() }; time.Sleep(time.Second * 1); i += 1 }`
of `Leave` with `k = 5 - i` iterations left; `leave` is the recursive call,
whose returned error the loop discards. -/
def leaveLoop (env : Env) (leave : World → Option (World × Outcome)) :
    Nat → World → Option (World × Outcome)
  | 0, w => some (w, Outcome.returned none)
  | k + 1, w =>
    let w := w.log Event.poll
    match (if w.c.Status = CONNECTED then leave w else some (w, Outcome.returned none)) with
    | none => none
    | some (w1, Outcome.panicked) => some (w1, Outcome.panicked)
    | some (w1, Outcome.returned _) => leaveLoop env leave k (sleepSecond env w1)

/-- Go: `func (c *Client) Leave() error`. The first argument bounds the depth
of the recursion (`none` when it is exhausted). -/
def Leave (env : Env) : Nat → World → Option (World × Outcome)
  | 0, _ => none
  | fuel + 1, w =>
    if w.c.Status ≠ CONNECTED then
      if w.c.Status = CONNECTING then
        match leaveLoop env (Leave env fuel) 5 w with
        | none => none
        | some (w1, Outcome.panicked) => some (w1, Outcome.panicked)
        | some (w1, Outcome.returned _) => some (w1, Outcome.returned (some notInMeeting))
      else some (w, Outcome.returned (some notInMeeting))
    else
      match w.c.ddpClient with
      | none => some (w, Outcome.panicked)
      | some d =>
        let w := w.log (Event.call (goString "userLeftMeeting") [])
        let w := w.log (Event.call (goString "setExitReason") [goString "logout"])
        let w := w.log Event.close
        some ({ w with c := { w.c with ddpClient := none } }, Outcome.returned none)

end bot

/-! ## Reference notions used to state the properties -/

namespace spec

/-- The lowercase hexadecimal digit of a value below 16: `0`-`9`, then
`a`-`f`. -/
def lowerHexDigit (d : Nat) : Byte := if d < 10 then byteOfNat (48 + d) else byteOfNat (87 + d)

/-- Lowercase hexadecimal encoding: two digits per byte, the high one first. -/
def lowerHex (bs : List Byte) : GoString :=
  bs.flatMap (fun b => [lowerHexDigit (b.val / 16), lowerHexDigit (b.val % 16)])

end spec

/-! ## The data of `TestGenerateChecksum` (`api/api_test.go`) -/

namespace api

/-- The secret of the tests: forty `X`. -/
def testSecret : GoString := goString "XXXXXXXXXXXXXXXXXXXXXXXXXXXXXXXXXXXXXXXX"

/-- The parameter list of the first test vector. -/
def testParams : List Params := [
  ⟨goString "allowStartStopRecording", goString "true"⟩,
  ⟨goString "attendeePW", goString "ap"⟩,
  ⟨goString "autoStartRecording", goString "false"⟩,
  ⟨goString "meetingID", goString "random-4026116"⟩,
  ⟨goString "moderatorPW", goString "mp"⟩,
  ⟨goString "name", goString "random-4026116"⟩,
  ⟨goString "record", goString "false"⟩,
  ⟨goString "voiceBridge", goString "70848"⟩,
  ⟨goString "welcome", goString "Hello you there"⟩]

/-- The request `bbbapi_sha1` of the test. -/
def testRequestSHA1 : ApiRequest :=
  (NewRequest (goString "https://example.com/bigbluebutton/api/") testSecret SHA1).1

/-- The request `bbbapi_sha256` of the test. -/
def testRequestSHA256 : ApiRequest :=
  (NewRequest (goString "https://example.com/bigbluebutton/api/") testSecret SHA256).1

end api

namespace spec

/-- The characters a query component keeps as they are: letters, digits and
`-_.~`. -/
def unreserved : GoString :=
  goString "ABCDEFGHIJKLMNOPQRSTUVWXYZabcdefghijklmnopqrstuvwxyz0123456789-_.~"

/-- The uppercase hexadecimal digit of a value below 16. -/
def upperHexDigit (d : Nat) : Byte := if d < 10 then byteOfNat (48 + d) else byteOfNat (55 + d)

/-- Query percent-encoding of one byte: a space becomes `+`, an unreserved
character stays, any other byte becomes `%` and its two hexadecimal digits. -/
def queryEscapeByte (c : Byte) : GoString :=
  if c = 32 then [43]
  else if c ∈ unreserved then [c]
  else [37, upperHexDigit (c.val / 16), upperHexDigit (c.val % 16)]

/-- Query percent-encoding of a string, byte by byte. -/
def queryEscape (s : GoString) : GoString := s.flatMap queryEscapeByte

/-- One `name=value` pair of a query string, both sides escaped. -/
def queryPair (p : api.Params) : GoString :=
  queryEscape p.Name ++ goString "=" ++ queryEscape p.Value

/-- The value of a hexadecimal digit (0 for any other byte). -/
def unhex (c : Byte) : Nat :=
  if 48 ≤ c.val ∧ c.val ≤ 57 then c.val - 48
  else if 65 ≤ c.val ∧ c.val ≤ 70 then c.val - 55
  else if 97 ≤ c.val ∧ c.val ≤ 102 then c.val - 87
  else 0

/-- Decoding of a query component: `+` is a space, `%` and two hexadecimal
digits are the byte they spell, any other byte is itself. -/
def queryUnescape : GoString → GoString
  | [] => []
  | c :: rest =>
    if c = 43 then 32 :: queryUnescape rest
    else if c = 37 then
      match rest with
      | h :: l :: more => byteOfNat (unhex h * 16 + unhex l) :: queryUnescape more
      | _ => []
    else c :: queryUnescape rest

/-- What follows the first pair of a query string: every further pair, each
after its `&`. -/
def queryTail (ps : List api.Params) : GoString :=
  ps.flatMap (fun p => goString "&" ++ queryPair p)

/-- Number of spaces in the names and values of a parameter list. -/
def spaceCount (ps : List api.Params) : Nat :=
  (ps.map (fun p => p.Name.count 32 + p.Value.count 32)).sum

end spec

/-! ## Worlds and collaborators used as concrete inputs -/

namespace bot

/-- The world after `k` rounds of the loop of `Leave` in which the status
test fails: the test is made, then a second is slept. -/
def idleRounds (env : Env) : Nat → World → World
  | 0, w => w
  | k + 1, w => idleRounds env k (sleepSecond env (w.log Event.poll))

/-- The client with another status and every other field as it is. -/
def Client.withStatus (c : Client) (s : StatusType) : Client := { c with Status := s }

/-- No connection is left open and no subscription is left standing. -/
def noResidual (c : Client) : Bool :=
  match c.ddpClient with
  | none => true
  | some d => !d.isOpen && d.subs.isEmpty

/-- The client `NewClient` builds for a server at `https://example.com`. -/
def testClient : Client :=
  { Status := DISCONNECTED
    ClientURL := goString "https://example.com/html5client/"
    ClientWSURL := goString "wss://example.com/html5client/websocket"
    PadURL := goString "https://example.com/pad/"
    PadWSURL := goString "wss://example.com/pad/"
    ApiURL := goString "https://example.com/bigbluebutton/api/"
    apiSecret := api.testSecret
    API := ⟨goString "https://example.com/bigbluebutton/api/", api.testSecret, api.SHA256⟩
    ddpClient := some ⟨false, []⟩
    JoinURL := []
    SessionCookie := []
    InternalUserID := []
    AuthToken := []
    SessionToken := []
    InternalMeetingID := [] }

/-- The answer of a REST join that succeeds. -/
def testJoinResult : JoinResult :=
  { joinURL := goString "https://example.com/html5client/join?sessionToken=s1"
    cookie := [goString "JSESSIONID=1"]
    internalUserID := goString "w_user"
    authToken := goString "token"
    sessionToken := goString "s1"
    internalMeetingID := goString "meeting-1"
    err := none }

/-- Collaborators that all succeed; nobody writes the status. -/
def envAllOk : Env :=
  { apiJoin := fun _ _ _ => testJoinResult
    connect := none
    sub := fun _ => none
    call := fun _ _ => none
    statusWrite := fun _ => none }

/-- Collaborators where only the `validateAuthToken` call fails. -/
def envAuthFails : Env :=
  { envAllOk with
    call := fun method _ =>
      if method = goString "validateAuthToken" then some (errors.New (goString "invalid token"))
      else none }

/-- Collaborators where only the subscription fails. -/
def envSubFails : Env :=
  { envAllOk with sub := fun _ => some (errors.New (goString "nosub")) }

/-- A client that is connecting, its connection open. -/
def connectingClient : Client :=
  { testClient with
    Status := CONNECTING
    ddpClient := some ⟨true, [goString "current-user"]⟩ }

/-- Another goroutine stores `CONNECTED` during the fourth second, so that the
fifth test of the loop of `Leave` sees it. -/
def envConnectedLate : Env :=
  { envAllOk with statusWrite := fun k => if k = 3 then some CONNECTED else none }

/-- Another goroutine stores `CONNECTED` during the first second and the
status stays so. -/
def envConnectedEarly : Env :=
  { envAllOk with statusWrite := fun k => if k = 0 then some CONNECTED else none }

/-- A client in a meeting: status `CONNECTED`, its connection open. -/
def connectedClient : Client :=
  { testClient with
    Status := CONNECTED
    ddpClient := some ⟨true, [goString "current-user"]⟩ }

/-- Collaborators whose remote calls all fail. -/
def envCallsFail : Env :=
  { envAllOk with call := fun _ _ => some (errors.New (goString "connection lost")) }

end bot

/-! # Properties -/

/-! ## Library lemmas -/

theorem strings.HasPrefix_iff (s p : GoString) : strings.HasPrefix s p = true ↔ p <+: s := by
  unfold strings.HasPrefix
  constructor
  · intro h
    simp only [Bool.and_eq_true, decide_eq_true_eq, beq_iff_eq] at h
    rw [← h.2]
    exact List.take_prefix _ _
  · intro h
    simp only [Bool.and_eq_true, decide_eq_true_eq, beq_iff_eq]
    exact ⟨h.length_le, List.prefix_iff_eq_take.mp h |>.symm⟩

theorem strings.HasSuffix_iff (s p : GoString) : strings.HasSuffix s p = true ↔ p <:+ s := by
  unfold strings.HasSuffix
  constructor
  · intro h
    simp only [Bool.and_eq_true, decide_eq_true_eq, beq_iff_eq] at h
    rw [← h.2]
    exact List.drop_suffix _ _
  · intro h
    simp only [Bool.and_eq_true, decide_eq_true_eq, beq_iff_eq]
    exact ⟨h.length_le, List.suffix_iff_eq_drop.mp h |>.symm⟩

/-! ## NewRequest -/

/-- C1: `NewRequest` returns an error exactly when the url starts with neither
`http://` nor `https://`; the request returned with the error is the empty
`ApiRequest`, every field the empty string. (The function is pure: its result
is all it does.) -/
theorem api.NewRequest_error_iff (url secret : GoString) (shatype : api.SHA) :
    ((api.NewRequest url secret shatype).2 ≠ none ↔
      (¬ goString "http://" <+: url ∧ ¬ goString "https://" <+: url)) ∧
    ((api.NewRequest url secret shatype).2 = none ∨
      ((api.NewRequest url secret shatype).1 = api.ApiRequest.zero ∧
       (api.NewRequest url secret shatype).1.Url = [] ∧
       (api.NewRequest url secret shatype).1.Secret = [] ∧
       (api.NewRequest url secret shatype).1.Shatype = [])) := by
  unfold api.NewRequest
  by_cases h1 : strings.HasPrefix url (goString "http://") = true
  · have h1' := (strings.HasPrefix_iff _ _).mp h1
    simp [h1, h1']
  · by_cases h2 : strings.HasPrefix url (goString "https://") = true
    · have h2' := (strings.HasPrefix_iff _ _).mp h2
      simp [h2, h2']
    · have h1' : ¬ goString "http://" <+: url := fun h => h1 ((strings.HasPrefix_iff _ _).mpr h)
      have h2' : ¬ goString "https://" <+: url := fun h => h2 ((strings.HasPrefix_iff _ _).mpr h)
      simp [h1, h2, h1', h2', api.ApiRequest.zero]

/-- C2: for a url that starts with `http://` or `https://`, `NewRequest`
succeeds; the request keeps the secret, keeps the hash mode when it is `SHA1`
or `SHA256` and takes `SHA256` otherwise, and its `Url` is the url with `/`
appended unless it ends in `/`, then `api/` appended unless it ends in `api/`.
That `Url` has the url as a prefix and ends in `api/`. -/
theorem api.NewRequest_ok (url secret : GoString) (shatype : api.SHA)
    (h : goString "http://" <+: url ∨ goString "https://" <+: url) :
    (api.NewRequest url secret shatype).2 = none ∧
    (api.NewRequest url secret shatype).1.Secret = secret ∧
    (api.NewRequest url secret shatype).1.Shatype =
      (if shatype = api.SHA1 ∨ shatype = api.SHA256 then shatype else api.SHA256) ∧
    (api.NewRequest url secret shatype).1.Url =
      (if goString "api/" <:+ (if goString "/" <:+ url then url else url ++ goString "/")
       then (if goString "/" <:+ url then url else url ++ goString "/")
       else (if goString "/" <:+ url then url else url ++ goString "/") ++ goString "api/") ∧
    url <+: (api.NewRequest url secret shatype).1.Url ∧
    goString "api/" <:+ (api.NewRequest url secret shatype).1.Url := by
  have hp : (strings.HasPrefix url (goString "http://") ||
      strings.HasPrefix url (goString "https://")) = true := by
    rcases h with h | h
    · simp [(strings.HasPrefix_iff _ _).mpr h]
    · simp [(strings.HasPrefix_iff _ _).mpr h]
  have hU : (api.NewRequest url secret shatype).1.Url =
      (if goString "api/" <:+ (if goString "/" <:+ url then url else url ++ goString "/")
       then (if goString "/" <:+ url then url else url ++ goString "/")
       else (if goString "/" <:+ url then url else url ++ goString "/") ++ goString "api/") := by
    unfold api.NewRequest
    simp only [hp, Bool.not_true, Bool.false_eq_true, if_false]
    by_cases a : goString "/" <:+ url
    · have a' := (strings.HasSuffix_iff _ _).mpr a
      simp only [a', a, if_true, Bool.not_true, Bool.false_eq_true, if_false]
      by_cases b : goString "api/" <:+ url
      · have b' := (strings.HasSuffix_iff _ _).mpr b
        simp [b, b']
      · have b' : strings.HasSuffix url (goString "api/") = false := by
          rw [Bool.eq_false_iff]; exact fun h => b ((strings.HasSuffix_iff _ _).mp h)
        simp [b, b']
    · have a' : strings.HasSuffix url (goString "/") = false := by
        rw [Bool.eq_false_iff]; exact fun h => a ((strings.HasSuffix_iff _ _).mp h)
      simp only [a', a, if_true, if_false, Bool.not_false]
      by_cases b : goString "api/" <:+ (url ++ goString "/")
      · have b' := (strings.HasSuffix_iff _ _).mpr b
        simp [b, b']
      · have b' : strings.HasSuffix (url ++ goString "/") (goString "api/") = false := by
          rw [Bool.eq_false_iff]; exact fun h => b ((strings.HasSuffix_iff _ _).mp h)
        simp [b, b']
  refine ⟨?_, ?_, ?_, hU, ?_, ?_⟩
  · unfold api.NewRequest
    simp only [hp, Bool.not_true, Bool.false_eq_true, if_false]
  · unfold api.NewRequest
    simp only [hp, Bool.not_true, Bool.false_eq_true, if_false]
  · unfold api.NewRequest
    simp only [hp, Bool.not_true, Bool.false_eq_true, if_false]
    by_cases a : shatype = api.SHA1
    · simp [a]
    · by_cases b : shatype = api.SHA256
      · simp [b]
      · simp [a, b]
  · rw [hU]
    split_ifs <;> simp [List.prefix_append]
  · rw [hU]
    split_ifs with a b b
    · exact b
    · exact List.suffix_append _ _
    · exact b
    · exact List.suffix_append _ _

theorem api.NewRequest_ok_witness :
    (goString "http://" <+: goString "https://example.com" ∨
      goString "https://" <+: goString "https://example.com") ∧
    (api.NewRequest (goString "https://example.com") api.testSecret (goString "bla")).2 = none ∧
    (api.NewRequest (goString "https://example.com") api.testSecret (goString "bla")).1.Url
      = goString "https://example.com/api/" ∧
    (api.NewRequest (goString "https://example.com/") api.testSecret api.SHA1).1.Url
      = goString "https://example.com/api/" ∧
    (api.NewRequest (goString "https://example.com") api.testSecret (goString "bla")).1.Shatype
      = api.SHA256 :=
  ⟨Or.inr (by decide),
   (api.NewRequest_ok (goString "https://example.com") api.testSecret (goString "bla")
      (Or.inr (by decide))).1,
   by decide, by decide, by decide⟩

theorem api.NewRequest_error_iff_witness :
    (api.NewRequest (goString "example.com") api.testSecret []).2 ≠ none ∧
    (api.NewRequest (goString "example.com") api.testSecret []).1 = api.ApiRequest.zero :=
  ⟨((api.NewRequest_error_iff (goString "example.com") api.testSecret []).1).mpr
      ⟨by decide, by decide⟩, by decide⟩

/-! ## generateChecksum -/

theorem hex.hextable_eq :
    hex.hextable = [48, 49, 50, 51, 52, 53, 54, 55, 56, 57, 97, 98, 99, 100, 101, 102] := by
  decide

theorem hex.EncodeToString_eq_lowerHex (bs : List Byte) :
    hex.EncodeToString bs = spec.lowerHex bs := by
  have h : ∀ v : Byte,
      [hex.hextable.getD (v.val >>> 4) 0, hex.hextable.getD (v.val &&& 0x0f) 0] =
      [spec.lowerHexDigit (v.val / 16), spec.lowerHexDigit (v.val % 16)] := by
    rw [hex.hextable_eq]
    decide!
  unfold hex.EncodeToString spec.lowerHex
  simp only [h]

theorem hex.EncodeToString_length (bs : List Byte) :
    (hex.EncodeToString bs).length = 2 * bs.length := by
  unfold hex.EncodeToString
  induction bs with
  | nil => rfl
  | cons b bs ih => simp only [List.flatMap_cons, List.length_append, ih, List.length_cons,
      List.length_nil]; omega

theorem spec.lowerHexDigit_mem (d : Nat) (h : d < 16) :
    spec.lowerHexDigit d ∈ goString "0123456789abcdef" := by
  have key : ∀ e : Fin 16, spec.lowerHexDigit e.val ∈ goString "0123456789abcdef" := by decide
  exact key ⟨d, h⟩

theorem hex.EncodeToString_digits (bs : List Byte) :
    ∀ c ∈ hex.EncodeToString bs, c ∈ goString "0123456789abcdef" := by
  intro c hc
  rw [hex.EncodeToString_eq_lowerHex] at hc
  unfold spec.lowerHex at hc
  rw [List.mem_flatMap] at hc
  obtain ⟨v, _, hv⟩ := hc
  simp only [List.mem_cons, List.mem_singleton, List.mem_nil_iff, or_false] at hv
  rcases hv with hv | hv
  · rw [hv]; exact spec.lowerHexDigit_mem _ (by have := v.isLt; omega)
  · rw [hv]; exact spec.lowerHexDigit_mem _ (by omega)

theorem sha.sha1Sum_length (msg : List Byte) : (sha.sha1Sum msg).length = 20 := by
  simp [sha.sha1Sum, sha.bytesOfWord]

theorem sha.sha256Sum_length (msg : List Byte) : (sha.sha256Sum msg).length = 32 := by
  simp [sha.sha256Sum, sha.bytesOfWord]

/-- C3: `generateChecksum(action, params)` is the lowercase hexadecimal
encoding of the hash of the bytes of `action ++ params ++ Secret`, the hash
being SHA-1 exactly when the request's `Shatype` is `SHA1` and SHA-256 for
every other value; it has 40 characters for `SHA1` and 64 otherwise, all of
them among `0123456789abcdef`. -/
theorem api.generateChecksum_spec (r : api.ApiRequest) (act : api.action) (params : GoString) :
    r.generateChecksum act params =
      spec.lowerHex ((if r.Shatype = api.SHA1 then sha.sha1Sum else sha.sha256Sum)
        (act ++ params ++ r.Secret)) ∧
    (r.generateChecksum act params).length = (if r.Shatype = api.SHA1 then 40 else 64) ∧
    (∀ c ∈ r.generateChecksum act params, c ∈ goString "0123456789abcdef") := by
  unfold api.ApiRequest.generateChecksum api.ApiRequest.generateChecksumSHA1
    api.ApiRequest.generateChecksumSHA256
  by_cases h : r.Shatype = api.SHA1
  · simp only [h, if_true]
    exact ⟨hex.EncodeToString_eq_lowerHex _,
      by rw [hex.EncodeToString_length, sha.sha1Sum_length], hex.EncodeToString_digits _⟩
  · simp only [h, if_false]
    exact ⟨hex.EncodeToString_eq_lowerHex _,
      by rw [hex.EncodeToString_length, sha.sha256Sum_length], hex.EncodeToString_digits _⟩

/-- C4: for the action `create`, the secret of forty `X` and the nine
parameters of the first test vector in their order, `generateChecksum` of
`buildParams` of the list is `2c2f2b2f6050bda0ff2c6dacd9d51e09951810ae` in
SHA1 mode and
`ae982d76751077e4e1eae8a667d5f74fe4f9c9a9df7d30ff2e56b3a025f1828d` in SHA256
mode. -/
theorem api.generateChecksum_test_vector :
    api.testRequestSHA1.generateChecksum api.CREATE (api.testRequestSHA1.buildParams api.testParams)
      = goString "2c2f2b2f6050bda0ff2c6dacd9d51e09951810ae" ∧
    api.testRequestSHA256.generateChecksum api.CREATE
        (api.testRequestSHA1.buildParams api.testParams)
      = goString "ae982d76751077e4e1eae8a667d5f74fe4f9c9a9df7d30ff2e56b3a025f1828d" := by
  constructor <;> decide

/-! ## buildParams -/

theorem url.upperhex_eq :
    url.upperhex = [48, 49, 50, 51, 52, 53, 54, 55, 56, 57, 65, 66, 67, 68, 69, 70] := by
  decide

theorem spec.unreserved_eq :
    spec.unreserved =
      [65, 66, 67, 68, 69, 70, 71, 72, 73, 74, 75, 76, 77, 78, 79, 80, 81, 82, 83, 84, 85, 86, 87, 88, 89, 90,
       97, 98, 99, 100, 101, 102, 103, 104, 105, 106, 107, 108, 109, 110, 111, 112, 113, 114, 115, 116, 117, 118, 119, 120, 121, 122,
       48, 49, 50, 51, 52, 53, 54, 55, 56, 57, 45, 95, 46, 126] := by
  decide

theorem url.escapeByte_eq (c : Byte) :
    (if c = 32 then [43]
      else if url.shouldEscape c then
        [37, url.upperhex.getD (c.val >>> 4) 0, url.upperhex.getD (c.val &&& 15) 0]
      else [c]) = spec.queryEscapeByte c := by
  unfold spec.queryEscapeByte
  rw [url.upperhex_eq, spec.unreserved_eq]
  revert c
  decide!

theorem url.shouldEscape_space : url.shouldEscape 32 = true := by decide

theorem url.escape_eq_queryEscape (s : GoString) : url.escape s = spec.queryEscape s := by
  unfold url.escape spec.queryEscape
  simp only [url.escapeByte_eq]
  by_cases h1 : (s.filter (fun c => url.shouldEscape c && c != 32)).length = 0
  · have hne : ∀ c ∈ s, c ≠ 32 → url.shouldEscape c = false := by
      intro c hc hc32
      rw [List.length_eq_zero, List.filter_eq_nil_iff] at h1
      have := h1 c hc
      simpa [hc32] using this
    by_cases h0 : (s.filter (fun c => url.shouldEscape c && c == 32)).length = 0
    · have hsp : ∀ c ∈ s, c ≠ 32 := by
        intro c hc hc32
        rw [List.length_eq_zero, List.filter_eq_nil_iff] at h0
        have := h0 c hc
        rw [hc32] at this
        simp [url.shouldEscape_space] at this
      rw [if_pos ⟨h0, h1⟩]
      symm
      have : ∀ c ∈ s, spec.queryEscapeByte c = [c] := by
        intro c hc
        rw [← url.escapeByte_eq, if_neg (hsp c hc), hne c hc (hsp c hc)]
        simp
      clear h0 h1 hne hsp
      induction s with
      | nil => rfl
      | cons a t ih =>
        rw [List.flatMap_cons, this a (List.mem_cons_self _ _),
          ih (fun c hc => this c (List.mem_cons_of_mem _ hc))]
        rfl
    · rw [if_neg (fun h => h0 h.1), if_pos h1]
      have : ∀ c ∈ s, spec.queryEscapeByte c = [if c = 32 then 43 else c] := by
        intro c hc
        rw [← url.escapeByte_eq]
        by_cases hc32 : c = 32
        · simp [hc32]
        · simp [hc32, hne c hc hc32]
      clear h0 h1 hne
      induction s with
      | nil => rfl
      | cons a t ih =>
        rw [List.flatMap_cons, this a (List.mem_cons_self _ _), List.map_cons,
          ih (fun c hc => this c (List.mem_cons_of_mem _ hc))]
        rfl
  · rw [if_neg (fun h => h1 h.2), if_neg h1]

theorem url.QueryEscape_eq (s : GoString) : url.QueryEscape s = spec.queryEscape s :=
  url.escape_eq_queryEscape s

theorem spec.queryEscapeByte_clean (c : Byte) :
    ∀ b ∈ spec.queryEscapeByte c, b ≠ 32 ∧ b ≠ 38 ∧ b ≠ 61 := by
  have key : ∀ c : Byte,
      (spec.queryEscapeByte c).all (fun b => b != 32 && b != 38 && b != 61) = true := by
    unfold spec.queryEscapeByte
    rw [spec.unreserved_eq]
    decide!
  intro b hb
  have := List.all_eq_true.mp (key c) b hb
  simpa [and_assoc] using this

theorem spec.queryEscape_clean (s : GoString) :
    ∀ b ∈ spec.queryEscape s, b ≠ 32 ∧ b ≠ 38 ∧ b ≠ 61 := by
  intro b hb
  unfold spec.queryEscape at hb
  rw [List.mem_flatMap] at hb
  obtain ⟨c, _, hc⟩ := hb
  exact spec.queryEscapeByte_clean c b hc

theorem spec.queryPair_clean (p : api.Params) : ∀ b ∈ spec.queryPair p, b ≠ 32 ∧ b ≠ 38 := by
  intro b hb
  unfold spec.queryPair at hb
  rw [List.mem_append, List.mem_append] at hb
  rcases hb with (hb | hb) | hb
  · exact ⟨(spec.queryEscape_clean _ b hb).1, (spec.queryEscape_clean _ b hb).2.1⟩
  · have : b = 61 := by simpa [goString, utf8EncodeRune, byteOfNat] using hb
    subst this
    exact ⟨by decide, by decide⟩
  · exact ⟨(spec.queryEscape_clean _ b hb).1, (spec.queryEscape_clean _ b hb).2.1⟩

theorem spec.queryPair_ne_nil (p : api.Params) : spec.queryPair p ≠ [] := by
  unfold spec.queryPair
  intro h
  have h2 := congrArg List.length h
  simp [goString, utf8EncodeRune] at h2

theorem api.buildParamsStep_eq (st : Nat × GoString) (p : api.Params) :
    api.buildParamsStep st p =
      (st.1 + 1, if st.1 = 0 then spec.queryPair p else st.2 ++ goString "&" ++ spec.queryPair p) := by
  unfold api.buildParamsStep spec.queryPair
  simp only [url.QueryEscape_eq]
  split_ifs <;> simp [List.append_assoc]

theorem api.buildParams_foldl_pos (ps : List api.Params) (n : Nat) (acc : GoString) :
    (ps.foldl api.buildParamsStep (n + 1, acc)).2 =
      acc ++ ps.flatMap (fun p => goString "&" ++ spec.queryPair p) := by
  induction ps generalizing n acc with
  | nil => simp
  | cons p ps ih =>
    rw [List.foldl_cons, api.buildParamsStep_eq]
    simp only [Nat.add_one_ne_zero, if_false]
    rw [ih, List.flatMap_cons]
    simp [List.append_assoc]

theorem spec.intercalate_cons_flatMap (sep x : GoString) (xs : List GoString) :
    List.intercalate sep (x :: xs) = x ++ xs.flatMap (fun y => sep ++ y) := by
  induction xs generalizing x with
  | nil => simp [List.intercalate]
  | cons y ys ih =>
    have := ih y
    simp only [List.intercalate, List.intersperse, List.flatten_cons, List.flatMap_cons] at this ⊢
    rw [this, List.append_assoc]

theorem api.ReplaceAll_plus (s : GoString) :
    strings.ReplaceAll s (url.QueryEscape (goString " ")) (goString "+") = s := by
  have h : url.QueryEscape (goString " ") = goString "+" := by decide
  unfold strings.ReplaceAll
  rw [h, if_pos rfl]

theorem api.buildParams_eq_intercalate (r : api.ApiRequest) (ps : List api.Params) :
    r.buildParams ps = List.intercalate (goString "&") (ps.map spec.queryPair) := by
  unfold api.ApiRequest.buildParams
  simp only [api.ReplaceAll_plus]
  cases ps with
  | nil => rfl
  | cons p ps =>
    rw [List.foldl_cons, api.buildParamsStep_eq]
    simp only [if_true, Nat.zero_add]
    rw [api.buildParams_foldl_pos, List.map_cons, spec.intercalate_cons_flatMap]
    congr 1
    induction ps with
    | nil => rfl
    | cons q qs ih => simp [List.flatMap_cons, List.map_cons, ih]

theorem api.buildParams_head (r : api.ApiRequest) (p : api.Params) (ps : List api.Params) :
    ∃ b rest, r.buildParams (p :: ps) = b :: rest ∧ b ≠ 38 := by
  rw [api.buildParams_eq_intercalate, List.map_cons, spec.intercalate_cons_flatMap]
  cases h : spec.queryPair p with
  | nil => exact absurd h (spec.queryPair_ne_nil p)
  | cons b t =>
    refine ⟨b, _, List.cons_append _ _ _, ?_⟩
    exact (spec.queryPair_clean p b (by rw [h]; exact List.mem_cons_self _ _)).2

theorem api.buildParams_concat (r : api.ApiRequest) (ps : List api.Params) (p : api.Params) :
    ∃ front, r.buildParams (ps ++ [p]) = front ++ spec.queryPair p := by
  unfold api.ApiRequest.buildParams
  simp only [api.ReplaceAll_plus]
  rw [List.foldl_append, List.foldl_cons, List.foldl_nil, api.buildParamsStep_eq]
  by_cases h : (List.foldl api.buildParamsStep (0, []) ps).1 = 0
  · exact ⟨[], by simp [h]⟩
  · exact ⟨(List.foldl api.buildParamsStep (0, []) ps).2 ++ goString "&", by simp [h]⟩

/-- C5: `buildParams` returns the empty string for the empty list and otherwise
the pairs `escape(name) ++ "=" ++ escape(value)` in the caller's order, joined
by single `&`; `escape` is the query percent-encoding that renders a space as
`+`. The result holds no raw space, and for a non-empty list it neither starts
nor ends with `&`. -/
theorem api.buildParams_spec (r : api.ApiRequest) (ps : List api.Params) :
    r.buildParams [] = [] ∧
    r.buildParams ps = List.intercalate (goString "&") (ps.map spec.queryPair) ∧
    (∀ b ∈ r.buildParams ps, b ≠ 32) ∧
    (ps = [] ∨ ((r.buildParams ps).head? ≠ some 38 ∧ (r.buildParams ps).getLast? ≠ some 38)) := by
  refine ⟨by rw [api.buildParams_eq_intercalate]; rfl, api.buildParams_eq_intercalate r ps, ?_, ?_⟩
  · intro b hb
    rw [api.buildParams_eq_intercalate] at hb
    cases ps with
    | nil => simp [List.intercalate] at hb
    | cons p ps =>
      rw [List.map_cons, spec.intercalate_cons_flatMap, List.mem_append, List.mem_flatMap] at hb
      rcases hb with hb | ⟨q, hq, hb⟩
      · exact (spec.queryPair_clean p b hb).1
      · rw [List.mem_map] at hq
        obtain ⟨q0, _, rfl⟩ := hq
        rw [List.mem_append] at hb
        rcases hb with hb | hb
        · have : b = 38 := by simpa [goString, utf8EncodeRune, byteOfNat] using hb
          subst this
          decide
        · exact (spec.queryPair_clean q0 b hb).1
  · cases ps with
    | nil => exact Or.inl rfl
    | cons p ps =>
      refine Or.inr ⟨?_, ?_⟩
      · obtain ⟨b, rest, hb, hne⟩ := api.buildParams_head r p ps
        rw [hb]
        simpa using hne
      · obtain ⟨qs, q, hq⟩ := List.eq_nil_or_concat (p :: ps) |>.resolve_left (by simp)
        rw [hq, List.concat_eq_append]
        obtain ⟨front, hf⟩ := api.buildParams_concat r qs q
        rw [hf, List.getLast?_append_of_ne_nil _ (spec.queryPair_ne_nil q)]
        intro h
        have hm := List.mem_of_getLast?_eq_some h
        exact (spec.queryPair_clean q 38 hm).2 rfl

/-! ## buildURL -/

theorem utf8.RuneCountInString_pos (s : GoString) : 0 < utf8.RuneCountInString s ↔ s ≠ [] := by
  unfold utf8.RuneCountInString
  cases s with
  | nil => simp [utf8.runeCountFrom]
  | cons c rest => simp [utf8.runeCountFrom]

theorem api.buildParams_eq_nil_iff (r : api.ApiRequest) (ps : List api.Params) :
    r.buildParams ps = [] ↔ ps = [] := by
  constructor
  · intro h
    cases ps with
    | nil => rfl
    | cons p ps =>
      obtain ⟨b, rest, hb, _⟩ := api.buildParams_head r p ps
      rw [hb] at h
      exact absurd h (List.cons_ne_nil _ _)
  · intro h
    rw [h, api.buildParams_eq_intercalate]
    rfl

/-- C6: with `q = buildParams(params)`, `buildURL` returns
`Url ++ action ++ "?" ++ q ++ "&checksum=" ++ generateChecksum(action, q)` when
`q` is not empty and `Url ++ action ++ "?checksum=" ++ generateChecksum(action, q)`
when it is; `q` is empty exactly when the parameter list is, and in both forms
the URL ends with `checksum=` followed by the checksum of the query string it
carries. -/
theorem api.buildURL_spec (r : api.ApiRequest) (act : api.action) (ps : List api.Params) :
    r.buildURL act ps =
      (if r.buildParams ps = [] then
        r.Url ++ act ++ goString "?checksum=" ++ r.generateChecksum act (r.buildParams ps)
       else
        r.Url ++ act ++ goString "?" ++ r.buildParams ps ++ goString "&checksum=" ++
          r.generateChecksum act (r.buildParams ps)) ∧
    (r.buildParams ps = [] ↔ ps = []) ∧
    (goString "checksum=" ++ r.generateChecksum act (r.buildParams ps)) <:+ r.buildURL act ps := by
  have hU : r.buildURL act ps =
      (if r.buildParams ps = [] then
        r.Url ++ act ++ goString "?checksum=" ++ r.generateChecksum act (r.buildParams ps)
       else
        r.Url ++ act ++ goString "?" ++ r.buildParams ps ++ goString "&checksum=" ++
          r.generateChecksum act (r.buildParams ps)) := by
    unfold api.ApiRequest.buildURL
    by_cases h : r.buildParams ps = []
    · simp only [h, if_true]
      rw [if_neg (by decide)]
    · have h0 : utf8.RuneCountInString (r.buildParams ps) > 0 :=
        (utf8.RuneCountInString_pos _).mpr h
      simp only [h0, if_true, h, if_false]
  refine ⟨hU, api.buildParams_eq_nil_iff r ps, ?_⟩
  rw [hU]
  have e1 : goString "?checksum=" = goString "?" ++ goString "checksum=" := by decide
  have e2 : goString "&checksum=" = goString "&" ++ goString "checksum=" := by decide
  split_ifs with h
  · rw [e1]
    exact ⟨r.Url ++ act ++ goString "?", by simp [List.append_assoc]⟩
  · rw [e2]
    exact ⟨r.Url ++ act ++ goString "?" ++ r.buildParams ps ++ goString "&",
      by simp [List.append_assoc]⟩

/-! ## Join -/

/-- C7 (as stated, refuted): on a client fresh from `NewClient`, with the REST
join, `Connect` and the subscription succeeding and the `validateAuthToken`
call failing, `Join` returns its error while the connection is still open and
the `current-user` subscription still stands; no `Close` was issued. (The
status is `DISCONNECTED` only because `Join` never assigns it.) -/
theorem bot.Join_validateAuthToken_leaves_residue :
    (bot.NewClient (goString "https://example.com/html5client/")
        (goString "wss://example.com/html5client/websocket")
        (goString "https://example.com/pad/") (goString "wss://example.com/pad/")
        (goString "https://example.com/bigbluebutton/api/") api.testSecret
      = (some bot.testClient, none)) ∧
    (bot.Join bot.envAuthFails ⟨bot.testClient, [], 0⟩ (goString "m") (goString "bot") false).2
      = bot.Outcome.returned (some (errors.New (goString "could not validateAuthToken"))) ∧
    (bot.Join bot.envAuthFails ⟨bot.testClient, [], 0⟩ (goString "m") (goString "bot") false).1.c.ddpClient
      = some ⟨true, [goString "current-user"]⟩ ∧
    bot.Event.close ∉
      (bot.Join bot.envAuthFails ⟨bot.testClient, [], 0⟩ (goString "m") (goString "bot") false).1.trace ∧
    bot.noResidual
      (bot.Join bot.envAuthFails ⟨bot.testClient, [], 0⟩ (goString "m") (goString "bot") false).1.c
      = false ∧
    (bot.Join bot.envAuthFails ⟨bot.testClient, [], 0⟩ (goString "m") (goString "bot") false).1.c.Status
      = bot.DISCONNECTED := by
  refine ⟨by decide, by decide, by decide, by decide, by decide, by decide⟩

/-- C7 (amended): when the REST join, `Connect` and the subscription succeed and
the `validateAuthToken` call fails, `Join` returns the new error
`could not validateAuthToken` and takes no rollback action: what it does is the
REST join, `Connect`, the subscription and the call, and nothing after the
failed call, so it issues no `Close` and no unsubscribe; `Join` does not assign
`Status`, which keeps the value it had. -/
theorem bot.Join_validateAuthToken_fails (env : bot.Env) (w : bot.World)
    (meetingID userName : GoString) (moderator : Bool) (d : ddp.Client) (e : GoError)
    (hd : w.c.ddpClient = some d)
    (h1 : (env.apiJoin meetingID userName moderator).err = none)
    (h2 : env.connect = none)
    (h3 : env.sub (goString "current-user") = none)
    (h4 : env.call (goString "validateAuthToken")
      [(env.apiJoin meetingID userName moderator).internalMeetingID,
       (env.apiJoin meetingID userName moderator).internalUserID,
       (env.apiJoin meetingID userName moderator).authToken,
       (env.apiJoin meetingID userName moderator).internalUserID] = some e) :
    (bot.Join env w meetingID userName moderator).2
      = bot.Outcome.returned (some (errors.New (goString "could not validateAuthToken"))) ∧
    (bot.Join env w meetingID userName moderator).1.trace = w.trace ++
      [bot.Event.apiJoin meetingID userName moderator, bot.Event.connect,
       bot.Event.sub (goString "current-user"),
       bot.Event.call (goString "validateAuthToken")
        [(env.apiJoin meetingID userName moderator).internalMeetingID,
         (env.apiJoin meetingID userName moderator).internalUserID,
         (env.apiJoin meetingID userName moderator).authToken,
         (env.apiJoin meetingID userName moderator).internalUserID]] ∧
    bot.Event.close ∉
      (bot.Join env w meetingID userName moderator).1.trace.drop w.trace.length ∧
    (bot.Join env w meetingID userName moderator).1.c.Status = w.c.Status ∧
    (bot.Join env w meetingID userName moderator).1.clock = w.clock := by
  have ht : (bot.Join env w meetingID userName moderator).1.trace = w.trace ++
      [bot.Event.apiJoin meetingID userName moderator, bot.Event.connect,
       bot.Event.sub (goString "current-user"),
       bot.Event.call (goString "validateAuthToken")
        [(env.apiJoin meetingID userName moderator).internalMeetingID,
         (env.apiJoin meetingID userName moderator).internalUserID,
         (env.apiJoin meetingID userName moderator).authToken,
         (env.apiJoin meetingID userName moderator).internalUserID]] := by
    unfold bot.Join
    simp only [h1, h2, h3, h4, hd, bot.World.log, List.append_assoc, List.singleton_append,
      List.cons_append, List.nil_append]
  refine ⟨?_, ht, ?_, ?_, ?_⟩
  · unfold bot.Join
    simp only [h1, h2, h3, h4, hd, bot.World.log]
  · rw [ht, List.drop_left]
    simp
  · unfold bot.Join
    simp only [h1, h2, h3, h4, hd, bot.World.log]
  · unfold bot.Join
    simp only [h1, h2, h3, h4, hd, bot.World.log]

theorem bot.Join_validateAuthToken_fails_witness :
    (bot.Join bot.envAuthFails ⟨bot.testClient, [], 0⟩ (goString "m") (goString "bot") false).2
      = bot.Outcome.returned (some (errors.New (goString "could not validateAuthToken"))) ∧
    (bot.Join bot.envAuthFails ⟨bot.testClient, [], 0⟩ (goString "m") (goString "bot") false).1.trace
      = [] ++
      [bot.Event.apiJoin (goString "m") (goString "bot") false, bot.Event.connect,
       bot.Event.sub (goString "current-user"),
       bot.Event.call (goString "validateAuthToken")
        [(bot.envAuthFails.apiJoin (goString "m") (goString "bot") false).internalMeetingID,
         (bot.envAuthFails.apiJoin (goString "m") (goString "bot") false).internalUserID,
         (bot.envAuthFails.apiJoin (goString "m") (goString "bot") false).authToken,
         (bot.envAuthFails.apiJoin (goString "m") (goString "bot") false).internalUserID]] ∧
    bot.Event.close ∉
      (bot.Join bot.envAuthFails ⟨bot.testClient, [], 0⟩ (goString "m") (goString "bot")
        false).1.trace.drop ([] : List bot.Event).length ∧
    (bot.Join bot.envAuthFails ⟨bot.testClient, [], 0⟩ (goString "m") (goString "bot") false).1.c.Status
      = bot.DISCONNECTED ∧
    (bot.Join bot.envAuthFails ⟨bot.testClient, [], 0⟩ (goString "m") (goString "bot") false).1.clock
      = 0 :=
  bot.Join_validateAuthToken_fails bot.envAuthFails ⟨bot.testClient, [], 0⟩ (goString "m")
    (goString "bot") false ⟨false, []⟩ (errors.New (goString "invalid token"))
    rfl rfl rfl rfl (by decide)

/-- C8 (as stated, refuted): the subscription is the first step to fail, with
the error `nosub`; `Join` returns the error `could sub current-user`, which is
not the originating error. -/
theorem bot.Join_sub_error_replaced :
    bot.envSubFails.sub (goString "current-user") = some (errors.New (goString "nosub")) ∧
    (bot.Join bot.envSubFails ⟨bot.testClient, [], 0⟩ (goString "m") (goString "bot") false).2
      = bot.Outcome.returned (some (errors.New (goString "could sub current-user"))) ∧
    (bot.Join bot.envSubFails ⟨bot.testClient, [], 0⟩ (goString "m") (goString "bot") false).2
      ≠ bot.Outcome.returned (some (errors.New (goString "nosub"))) := by
  refine ⟨by decide, by decide, by decide⟩

/-- C8 (amended): on a client that holds a `ddp` client, the first step of
`Join` to fail ends it, and none of the later steps is performed. When the
REST join or `Connect` fails with `e`, `Join` returns `e` itself; when the
subscription fails it returns the new error `could sub current-user`, and when
the `validateAuthToken` call fails the new error `could not validateAuthToken`,
whatever the originating error was. `Join` returns `nil` exactly when all four
steps succeed. -/
theorem bot.Join_first_failure (env : bot.Env) (w : bot.World)
    (meetingID userName : GoString) (moderator : Bool) (d : ddp.Client)
    (hd : w.c.ddpClient = some d) :
    (∀ e, (env.apiJoin meetingID userName moderator).err = some e →
      (bot.Join env w meetingID userName moderator).2 = bot.Outcome.returned (some e) ∧
      (bot.Join env w meetingID userName moderator).1.trace =
        w.trace ++ [bot.Event.apiJoin meetingID userName moderator]) ∧
    (∀ e, (env.apiJoin meetingID userName moderator).err = none → env.connect = some e →
      (bot.Join env w meetingID userName moderator).2 = bot.Outcome.returned (some e) ∧
      (bot.Join env w meetingID userName moderator).1.trace =
        w.trace ++ [bot.Event.apiJoin meetingID userName moderator, bot.Event.connect]) ∧
    (∀ e, (env.apiJoin meetingID userName moderator).err = none → env.connect = none →
      env.sub (goString "current-user") = some e →
      (bot.Join env w meetingID userName moderator).2 =
        bot.Outcome.returned (some (errors.New (goString "could sub current-user"))) ∧
      (bot.Join env w meetingID userName moderator).1.trace =
        w.trace ++ [bot.Event.apiJoin meetingID userName moderator, bot.Event.connect,
          bot.Event.sub (goString "current-user")]) ∧
    (∀ e, (env.apiJoin meetingID userName moderator).err = none → env.connect = none →
      env.sub (goString "current-user") = none →
      env.call (goString "validateAuthToken")
        [(env.apiJoin meetingID userName moderator).internalMeetingID,
         (env.apiJoin meetingID userName moderator).internalUserID,
         (env.apiJoin meetingID userName moderator).authToken,
         (env.apiJoin meetingID userName moderator).internalUserID] = some e →
      (bot.Join env w meetingID userName moderator).2 =
        bot.Outcome.returned (some (errors.New (goString "could not validateAuthToken"))) ∧
      (bot.Join env w meetingID userName moderator).1.trace =
        w.trace ++ [bot.Event.apiJoin meetingID userName moderator, bot.Event.connect,
          bot.Event.sub (goString "current-user"),
          bot.Event.call (goString "validateAuthToken")
            [(env.apiJoin meetingID userName moderator).internalMeetingID,
             (env.apiJoin meetingID userName moderator).internalUserID,
             (env.apiJoin meetingID userName moderator).authToken,
             (env.apiJoin meetingID userName moderator).internalUserID]]) ∧
    ((bot.Join env w meetingID userName moderator).2 = bot.Outcome.returned none ↔
      ((env.apiJoin meetingID userName moderator).err = none ∧ env.connect = none ∧
       env.sub (goString "current-user") = none ∧
       env.call (goString "validateAuthToken")
        [(env.apiJoin meetingID userName moderator).internalMeetingID,
         (env.apiJoin meetingID userName moderator).internalUserID,
         (env.apiJoin meetingID userName moderator).authToken,
         (env.apiJoin meetingID userName moderator).internalUserID] = none)) := by
  refine ⟨?_, ?_, ?_, ?_, ?_⟩
  · intro e h1
    unfold bot.Join
    simp [h1, bot.World.log]
  · intro e h1 h2
    unfold bot.Join
    simp [h1, h2, hd, bot.World.log]
  · intro e h1 h2 h3
    unfold bot.Join
    simp [h1, h2, h3, hd, bot.World.log]
  · intro e h1 h2 h3 h4
    unfold bot.Join
    simp [h1, h2, h3, h4, hd, bot.World.log]
  · unfold bot.Join
    simp only [hd, bot.World.log]
    cases h1 : (env.apiJoin meetingID userName moderator).err with
    | some e => simp
    | none =>
      cases h2 : env.connect with
      | some e => simp
      | none =>
        cases h3 : env.sub (goString "current-user") with
        | some e => simp [errors.New]
        | none =>
          cases h4 : env.call (goString "validateAuthToken")
            [(env.apiJoin meetingID userName moderator).internalMeetingID,
             (env.apiJoin meetingID userName moderator).internalUserID,
             (env.apiJoin meetingID userName moderator).authToken,
             (env.apiJoin meetingID userName moderator).internalUserID] with
          | some e => simp [errors.New]
          | none => simp

theorem bot.Join_first_failure_witness :
    (bot.Join bot.envSubFails ⟨bot.testClient, [], 0⟩ (goString "m") (goString "bot") false).2 =
        bot.Outcome.returned (some (errors.New (goString "could sub current-user"))) ∧
    (bot.Join bot.envSubFails ⟨bot.testClient, [], 0⟩ (goString "m") (goString "bot") false).1.trace =
        [] ++ [bot.Event.apiJoin (goString "m") (goString "bot") false, bot.Event.connect,
          bot.Event.sub (goString "current-user")] :=
  (bot.Join_first_failure bot.envSubFails ⟨bot.testClient, [], 0⟩ (goString "m") (goString "bot")
    false ⟨false, []⟩ rfl).2.2.1 (errors.New (goString "nosub")) rfl rfl rfl

/-! ## Leave -/

theorem bot.sleepSecond_trace (env : bot.Env) (w : bot.World) :
    (bot.sleepSecond env w).trace = w.trace ++ [bot.Event.sleep 1] := rfl

theorem bot.sleepSecond_clock (env : bot.Env) (w : bot.World) :
    (bot.sleepSecond env w).clock = w.clock + 1 := rfl

theorem bot.sleepSecond_client (env : bot.Env) (w : bot.World) :
    (bot.sleepSecond env w).c = w.c.withStatus (bot.sleepSecond env w).c.Status := by
  unfold bot.sleepSecond
  cases env.statusWrite w.clock <;> rfl

theorem bot.sleepSecond_status (env : bot.Env) (w : bot.World) :
    (bot.sleepSecond env w).c.Status = (env.statusWrite w.clock).getD w.c.Status := by
  unfold bot.sleepSecond
  cases env.statusWrite w.clock <;> rfl

theorem bot.idleRounds_trace (env : bot.Env) (k : Nat) (w : bot.World) :
    (bot.idleRounds env k w).trace =
      w.trace ++ (List.replicate k [bot.Event.poll, bot.Event.sleep 1]).flatten := by
  induction k generalizing w with
  | zero => simp [bot.idleRounds]
  | succ k ih =>
    rw [bot.idleRounds, ih, bot.sleepSecond_trace]
    simp [bot.World.log, List.replicate_succ]

theorem bot.idleRounds_clock (env : bot.Env) (k : Nat) (w : bot.World) :
    (bot.idleRounds env k w).clock = w.clock + k := by
  induction k generalizing w with
  | zero => rfl
  | succ k ih =>
    rw [bot.idleRounds, ih, bot.sleepSecond_clock]
    simp only [bot.World.log]
    omega

theorem bot.idleRounds_client (env : bot.Env) (k : Nat) (w : bot.World) :
    (bot.idleRounds env k w).c = w.c.withStatus (bot.idleRounds env k w).c.Status := by
  induction k generalizing w with
  | zero => rfl
  | succ k ih =>
    rw [bot.idleRounds]
    have h1 := ih (bot.sleepSecond env (w.log bot.Event.poll))
    have h2 := bot.sleepSecond_client env (w.log bot.Event.poll)
    rw [h2] at h1
    rw [h1]
    rfl

theorem bot.idleRounds_silent (env : bot.Env) (k : Nat) (w : bot.World)
    (h : ∀ j < k, env.statusWrite (w.clock + j) = none) :
    (bot.idleRounds env k w).c = w.c := by
  induction k generalizing w with
  | zero => rfl
  | succ k ih =>
    rw [bot.idleRounds, ih]
    · have h0 := h 0 (Nat.succ_pos k)
      simp only [Nat.add_zero] at h0
      simp [bot.sleepSecond, bot.World.log, h0]
    · intro j hj
      have := h (j + 1) (Nat.succ_lt_succ hj)
      simpa [bot.sleepSecond, bot.World.log, Nat.add_assoc, Nat.add_comm 1 j] using this

theorem bot.leaveLoop_idle (env : bot.Env) (leave : bot.World → Option (bot.World × bot.Outcome))
    (k : Nat) (w : bot.World) (h0 : w.c.Status ≠ bot.CONNECTED)
    (hw : ∀ j < k, env.statusWrite (w.clock + j) ≠ some bot.CONNECTED) :
    bot.leaveLoop env leave (k + 1) w =
      some (bot.idleRounds env (k + 1) w, bot.Outcome.returned none) := by
  induction k generalizing w with
  | zero =>
    simp [bot.leaveLoop, bot.idleRounds, bot.World.log, h0]
  | succ k ih =>
    have hstep : bot.leaveLoop env leave (k + 1 + 1) w =
        bot.leaveLoop env leave (k + 1) (bot.sleepSecond env (w.log bot.Event.poll)) := by
      rw [bot.leaveLoop]
      simp [bot.World.log, h0]
    rw [hstep, bot.idleRounds, ih]
    · rw [bot.sleepSecond_status]
      have := hw 0 (Nat.succ_pos k)
      simp only [Nat.add_zero] at this
      simp only [bot.World.log]
      cases hs : env.statusWrite w.clock with
      | none => exact h0
      | some s =>
        simp only [Option.getD_some]
        intro hc
        rw [hs, hc] at this
        exact this rfl
    · intro j hj
      have := hw (j + 1) (Nat.succ_lt_succ hj)
      simpa [bot.sleepSecond, bot.World.log, Nat.add_assoc, Nat.add_comm 1 j] using this

/-- C9: when `Leave` is called with status `CONNECTING` and no test of the loop
sees `CONNECTED`, it tests the status five times, sleeps one second after each
test, and then returns the not-in-meeting error. Its only actions are these
tests and sleeps (no remote call, no `Close`), and it assigns no field of the
client: the client is the one it was, but for what other goroutines stored in
`Status` meanwhile. -/
theorem bot.Leave_connecting_never_connected (env : bot.Env) (fuel : Nat) (w : bot.World)
    (hs : w.c.Status = bot.CONNECTING)
    (hw : ∀ j < 4, env.statusWrite (w.clock + j) ≠ some bot.CONNECTED) :
    bot.Leave env (fuel + 1) w =
      some (bot.idleRounds env 5 w, bot.Outcome.returned (some bot.notInMeeting)) ∧
    (bot.idleRounds env 5 w).trace = w.trace ++
      [bot.Event.poll, bot.Event.sleep 1, bot.Event.poll, bot.Event.sleep 1,
       bot.Event.poll, bot.Event.sleep 1, bot.Event.poll, bot.Event.sleep 1,
       bot.Event.poll, bot.Event.sleep 1] ∧
    (bot.idleRounds env 5 w).c = w.c.withStatus (bot.idleRounds env 5 w).c.Status ∧
    ((∀ j < 5, env.statusWrite (w.clock + j) = none) → bot.idleRounds env 5 w = 
      { w with clock := w.clock + 5, trace := (bot.idleRounds env 5 w).trace }) := by
  have hne : w.c.Status ≠ bot.CONNECTED := by
    rw [hs]; decide
  refine ⟨?_, ?_, bot.idleRounds_client env 5 w, ?_⟩
  · rw [bot.Leave]
    rw [if_pos hne, if_pos hs, bot.leaveLoop_idle env _ 4 w hne hw]
  · rw [bot.idleRounds_trace]
    rfl
  · intro h
    have h1 := bot.idleRounds_silent env 5 w h
    have h2 := bot.idleRounds_clock env 5 w
    cases hr : bot.idleRounds env 5 w with
    | mk c t n =>
      rw [hr] at h1 h2
      simp only at h1 h2
      simp [h1, h2]

theorem bot.Leave_connecting_never_connected_witness :
    bot.Leave bot.envAllOk 1 ⟨bot.connectingClient, [], 0⟩ =
      some (⟨bot.connectingClient,
        [bot.Event.poll, bot.Event.sleep 1, bot.Event.poll, bot.Event.sleep 1,
         bot.Event.poll, bot.Event.sleep 1, bot.Event.poll, bot.Event.sleep 1,
         bot.Event.poll, bot.Event.sleep 1], 5⟩,
        bot.Outcome.returned (some bot.notInMeeting)) := by
  have h := (bot.Leave_connecting_never_connected bot.envAllOk 0 ⟨bot.connectingClient, [], 0⟩
    (by decide) (by decide)).1
  rw [h]
  decide

/-- C10 (the code at the failing inputs): the status is `CONNECTING` at the
call. When the fifth test of the loop sees `CONNECTED`, the inner `Leave`
performs the leave sequence once, and the outer `Leave` then sleeps once more
and returns the not-in-meeting error. When the second test sees `CONNECTED`
and the status stays so, the loop goes on after the inner `Leave`: the third
test calls `Leave` again, on the `nil` `ddpClient`. -/
theorem bot.Leave_connecting_then_connected :
    bot.Leave bot.envConnectedLate 2 ⟨bot.connectingClient, [], 0⟩ =
      some (⟨{ bot.connectingClient with Status := bot.CONNECTED, ddpClient := none },
        [bot.Event.poll, bot.Event.sleep 1, bot.Event.poll, bot.Event.sleep 1,
         bot.Event.poll, bot.Event.sleep 1, bot.Event.poll, bot.Event.sleep 1,
         bot.Event.poll,
         bot.Event.call (goString "userLeftMeeting") [],
         bot.Event.call (goString "setExitReason") [goString "logout"],
         bot.Event.close,
         bot.Event.sleep 1], 5⟩,
        bot.Outcome.returned (some bot.notInMeeting)) ∧
    bot.Leave bot.envConnectedEarly 2 ⟨bot.connectingClient, [], 0⟩ =
      some (⟨{ bot.connectingClient with Status := bot.CONNECTED, ddpClient := none },
        [bot.Event.poll, bot.Event.sleep 1, bot.Event.poll,
         bot.Event.call (goString "userLeftMeeting") [],
         bot.Event.call (goString "setExitReason") [goString "logout"],
         bot.Event.close,
         bot.Event.sleep 1, bot.Event.poll], 2⟩,
        bot.Outcome.panicked) := by
  constructor <;> decide

/-- Whatever the collaborators do, a `Leave` that starts with status
`CONNECTING` never returns `nil`. -/
theorem bot.Leave_connecting_never_nil (env : bot.Env) (fuel : Nat) (w w1 : bot.World)
    (hs : w.c.Status = bot.CONNECTING) :
    bot.Leave env fuel w ≠ some (w1, bot.Outcome.returned none) := by
  have hne : w.c.Status ≠ bot.CONNECTED := by
    rw [hs]; decide
  cases fuel with
  | zero => simp [bot.Leave]
  | succ fuel =>
    rw [bot.Leave, if_pos hne, if_pos hs]
    cases bot.leaveLoop env (bot.Leave env fuel) 5 w with
    | none => simp
    | some r =>
      obtain ⟨w2, o⟩ := r
      cases o <;> simp [bot.notInMeeting, errors.New]

theorem bot.Leave_connected_some (env : bot.Env) (fuel : Nat) (w : bot.World)
    (hs : w.c.Status = bot.CONNECTED) : (bot.Leave env (fuel + 1) w).isSome = true := by
  rw [bot.Leave]
  simp only [hs, ne_eq, not_true_eq_false, if_false]
  cases w.c.ddpClient <;> rfl

theorem bot.leaveLoop_some (env : bot.Env) (leave : bot.World → Option (bot.World × bot.Outcome))
    (hl : ∀ w, w.c.Status = bot.CONNECTED → (leave w).isSome = true) (k : Nat) (w : bot.World) :
    (bot.leaveLoop env leave k w).isSome = true := by
  induction k generalizing w with
  | zero => rfl
  | succ k ih =>
    rw [bot.leaveLoop]
    by_cases hc : (w.log bot.Event.poll).c.Status = bot.CONNECTED
    · simp only [hc, if_true]
      have := hl (w.log bot.Event.poll) hc
      cases hr : leave (w.log bot.Event.poll) with
      | none => rw [hr] at this; exact absurd this (by decide)
      | some r =>
        obtain ⟨w2, o⟩ := r
        cases o with
        | panicked => rfl
        | returned e => exact ih _
    · simp only [hc, if_false]
      exact ih _

/-- Two levels of recursion are enough: with fuel 2 or more `Leave` always
yields a result. -/
theorem bot.Leave_total (env : bot.Env) (fuel : Nat) (w : bot.World) :
    (bot.Leave env (fuel + 2) w).isSome = true := by
  by_cases hc : w.c.Status = bot.CONNECTED
  · exact bot.Leave_connected_some env (fuel + 1) w hc
  · rw [bot.Leave, if_pos hc]
    by_cases hs : w.c.Status = bot.CONNECTING
    · rw [if_pos hs]
      have := bot.leaveLoop_some env (bot.Leave env (fuel + 1))
        (fun w hw => bot.Leave_connected_some env fuel w hw) 5 w
      cases hr : bot.leaveLoop env (bot.Leave env (fuel + 1)) 5 w with
      | none => rw [hr] at this; exact absurd this (by decide)
      | some r =>
        obtain ⟨w2, o⟩ := r
        cases o <;> rfl
    · rw [if_neg hs]
      rfl

/-- C11 (as stated, refuted): a first `Leave` on a client in a meeting returns
`nil` and leaves the status `CONNECTED` with `ddpClient` set to `nil`; a second
`Leave`, again called with status `CONNECTED`, does not return `nil` and makes
no remote call: its first call is made on the `nil` `ddpClient`. -/
theorem bot.Leave_connected_nil_client :
    bot.Leave bot.envAllOk 1 ⟨bot.connectedClient, [], 0⟩ =
      some (⟨{ bot.connectedClient with ddpClient := none },
        [bot.Event.call (goString "userLeftMeeting") [],
         bot.Event.call (goString "setExitReason") [goString "logout"],
         bot.Event.close], 0⟩, bot.Outcome.returned none) ∧
    ({ bot.connectedClient with ddpClient := none } : bot.Client).Status = bot.CONNECTED ∧
    bot.Leave bot.envAllOk 1 ⟨{ bot.connectedClient with ddpClient := none },
        [bot.Event.call (goString "userLeftMeeting") [],
         bot.Event.call (goString "setExitReason") [goString "logout"],
         bot.Event.close], 0⟩ =
      some (⟨{ bot.connectedClient with ddpClient := none },
        [bot.Event.call (goString "userLeftMeeting") [],
         bot.Event.call (goString "setExitReason") [goString "logout"],
         bot.Event.close], 0⟩, bot.Outcome.panicked) := by
  refine ⟨by decide, by decide, by decide⟩

/-- C11 (amended): when `Leave` is called with status `CONNECTED` on a client
whose `ddpClient` is not `nil`, it returns `nil` whatever the two remote calls
answer: its actions are the call `userLeftMeeting`, then the call
`setExitReason` with the argument `logout`, then `Close`, each once and in this
order, and afterwards `ddpClient` is `nil`; nothing else of the client
changes. -/
theorem bot.Leave_connected (env : bot.Env) (fuel : Nat) (w : bot.World) (d : ddp.Client)
    (hs : w.c.Status = bot.CONNECTED) (hd : w.c.ddpClient = some d) :
    bot.Leave env (fuel + 1) w =
      some (⟨{ w.c with ddpClient := none },
        w.trace ++ [bot.Event.call (goString "userLeftMeeting") [],
          bot.Event.call (goString "setExitReason") [goString "logout"],
          bot.Event.close],
        w.clock⟩, bot.Outcome.returned none) := by
  rw [bot.Leave]
  simp [hs, hd, bot.World.log]

theorem bot.Leave_connected_witness :
    bot.Leave bot.envCallsFail 1 ⟨bot.connectedClient, [], 0⟩ =
      some (⟨{ bot.connectedClient with ddpClient := none },
        [] ++ [bot.Event.call (goString "userLeftMeeting") [],
          bot.Event.call (goString "setExitReason") [goString "logout"],
          bot.Event.close],
        0⟩, bot.Outcome.returned none) ∧
    bot.envCallsFail.call (goString "userLeftMeeting") [] ≠ none ∧
    bot.envCallsFail.call (goString "setExitReason") [goString "logout"] ≠ none :=
  ⟨bot.Leave_connected bot.envCallsFail 0 ⟨bot.connectedClient, [], 0⟩
    ⟨true, [goString "current-user"]⟩ rfl rfl, by decide, by decide⟩

/-- C12: when `Leave` is called with a status that is neither `CONNECTED` nor
`CONNECTING`, it returns the not-in-meeting error at once: the world after the
call is the world before it, so there was no sleep, no remote call, no `Close`,
and no field of the client changed. -/
theorem bot.Leave_not_in_meeting (env : bot.Env) (fuel : Nat) (w : bot.World)
    (h1 : w.c.Status ≠ bot.CONNECTED) (h2 : w.c.Status ≠ bot.CONNECTING) :
    bot.Leave env (fuel + 1) w = some (w, bot.Outcome.returned (some bot.notInMeeting)) := by
  rw [bot.Leave, if_pos h1, if_neg h2]

theorem bot.Leave_not_in_meeting_witness :
    bot.Leave bot.envAllOk 1 ⟨bot.testClient, [], 0⟩ =
      some (⟨bot.testClient, [], 0⟩, bot.Outcome.returned (some bot.notInMeeting)) ∧
    bot.Leave bot.envAllOk 1 ⟨bot.testClient.withStatus bot.DISCONNECTING, [], 0⟩ =
      some (⟨bot.testClient.withStatus bot.DISCONNECTING, [], 0⟩,
        bot.Outcome.returned (some bot.notInMeeting)) ∧
    bot.Leave bot.envAllOk 1 ⟨bot.testClient.withStatus bot.RECONNECTING, [], 0⟩ =
      some (⟨bot.testClient.withStatus bot.RECONNECTING, [], 0⟩,
        bot.Outcome.returned (some bot.notInMeeting)) :=
  ⟨bot.Leave_not_in_meeting bot.envAllOk 0 ⟨bot.testClient, [], 0⟩ (by decide) (by decide),
   bot.Leave_not_in_meeting bot.envAllOk 0 ⟨bot.testClient.withStatus bot.DISCONNECTING, [], 0⟩
     (by decide) (by decide),
   bot.Leave_not_in_meeting bot.envAllOk 0 ⟨bot.testClient.withStatus bot.RECONNECTING, [], 0⟩
     (by decide) (by decide)⟩

/-! ## buildParams is injective -/

theorem spec.queryEscapeByte_shape (a : Byte) :
    (a = 32 ∧ spec.queryEscapeByte a = [43]) ∨
    (a ≠ 43 ∧ a ≠ 37 ∧ spec.queryEscapeByte a = [a]) ∨
    (∃ h l, spec.queryEscapeByte a = [37, h, l] ∧
      byteOfNat (spec.unhex h * 16 + spec.unhex l) = a) := by
  have key : ∀ a : Byte,
      (a == 32 && spec.queryEscapeByte a == [43]) ||
      (a != 43 && a != 37 && spec.queryEscapeByte a == [a]) ||
      (spec.queryEscapeByte a ==
          [37, spec.upperHexDigit (a.val / 16), spec.upperHexDigit (a.val % 16)] &&
        byteOfNat (spec.unhex (spec.upperHexDigit (a.val / 16)) * 16 +
          spec.unhex (spec.upperHexDigit (a.val % 16))) == a) = true := by
    unfold spec.queryEscapeByte
    rw [spec.unreserved_eq]
    decide!
  have h := key a
  simp only [Bool.or_eq_true, Bool.and_eq_true, beq_iff_eq, bne_iff_ne, decide_eq_true_eq] at h
  rcases h with (h | h) | h
  · exact Or.inl h
  · exact Or.inr (Or.inl ⟨h.1.1, h.1.2, h.2⟩)
  · exact Or.inr (Or.inr ⟨_, _, h.1, h.2⟩)

theorem spec.queryUnescape_escapeByte (a : Byte) (rest : GoString) :
    spec.queryUnescape (spec.queryEscapeByte a ++ rest) = a :: spec.queryUnescape rest := by
  rcases spec.queryEscapeByte_shape a with ⟨h1, h2⟩ | ⟨h1, h2, h3⟩ | ⟨h, l, h1, h2⟩
  · rw [h2, h1, List.singleton_append, spec.queryUnescape.eq_def]
    simp only [if_true]
  · rw [h3, List.singleton_append, spec.queryUnescape.eq_def]
    simp only [h1, h2, if_false]
  · rw [h1]
    show spec.queryUnescape (37 :: h :: l :: rest) = _
    rw [spec.queryUnescape.eq_def]
    simp only [h2, if_true]
    rfl

theorem spec.queryUnescape_escape (s : GoString) :
    spec.queryUnescape (spec.queryEscape s) = s := by
  induction s with
  | nil => simp [spec.queryEscape, spec.queryUnescape]
  | cons a s ih =>
    unfold spec.queryEscape at ih ⊢
    rw [List.flatMap_cons, spec.queryUnescape_escapeByte, ih]

theorem spec.queryEscape_injective (s t : GoString)
    (h : spec.queryEscape s = spec.queryEscape t) : s = t := by
  rw [← spec.queryUnescape_escape s, ← spec.queryUnescape_escape t, h]

theorem spec.append_split (sep : Byte) (x y tx ty : GoString)
    (hx : sep ∉ x) (hy : sep ∉ y)
    (htx : tx = [] ∨ ∃ more, tx = sep :: more) (hty : ty = [] ∨ ∃ more, ty = sep :: more)
    (h : x ++ tx = y ++ ty) : x = y ∧ tx = ty := by
  induction x generalizing y with
  | nil =>
    cases y with
    | nil => exact ⟨rfl, by simpa using h⟩
    | cons b y =>
      exfalso
      rw [List.nil_append, List.cons_append] at h
      rcases htx with htx | ⟨more, htx⟩
      · rw [htx] at h; exact List.noConfusion h
      · rw [htx] at h
        injection h with h1 _
        exact hy (by rw [h1]; exact List.mem_cons_self _ _)
  | cons a x ih =>
    cases y with
    | nil =>
      exfalso
      rw [List.nil_append, List.cons_append] at h
      rcases hty with hty | ⟨more, hty⟩
      · rw [hty] at h; exact List.noConfusion h
      · rw [hty] at h
        injection h with h1 _
        exact hx (by rw [← h1]; exact List.mem_cons_self _ _)
    | cons b y =>
      rw [List.cons_append, List.cons_append] at h
      injection h with h1 h2
      have := ih y (fun hm => hx (List.mem_cons_of_mem _ hm))
        (fun hm => hy (List.mem_cons_of_mem _ hm)) h2
      exact ⟨by rw [h1, this.1], this.2⟩

theorem spec.queryPair_eq (p : api.Params) :
    spec.queryPair p = spec.queryEscape p.Name ++ 61 :: spec.queryEscape p.Value := by
  have : goString "=" = [61] := by decide
  unfold spec.queryPair
  rw [this, List.append_assoc, List.singleton_append]

theorem spec.queryTail_nil : spec.queryTail [] = [] := rfl

theorem spec.queryTail_cons (p : api.Params) (ps : List api.Params) :
    spec.queryTail (p :: ps) = 38 :: (spec.queryPair p ++ spec.queryTail ps) := by
  have : goString "&" = [38] := by decide
  unfold spec.queryTail
  rw [List.flatMap_cons, this, List.singleton_append, List.cons_append]

theorem spec.queryTail_shape (ps : List api.Params) :
    spec.queryTail ps = [] ∨ ∃ more, spec.queryTail ps = 38 :: more := by
  cases ps with
  | nil => exact Or.inl rfl
  | cons p ps => exact Or.inr ⟨_, spec.queryTail_cons p ps⟩

theorem spec.queryPair_append_inj (p q : api.Params) (tp tq : GoString)
    (htp : tp = [] ∨ ∃ more, tp = 38 :: more) (htq : tq = [] ∨ ∃ more, tq = 38 :: more)
    (h : spec.queryPair p ++ tp = spec.queryPair q ++ tq) : p = q ∧ tp = tq := by
  rw [spec.queryPair_eq, spec.queryPair_eq, List.append_assoc, List.append_assoc] at h
  have h1 := spec.append_split 61 _ _ _ _
    (fun hm => (spec.queryEscape_clean p.Name 61 hm).2.2 rfl)
    (fun hm => (spec.queryEscape_clean q.Name 61 hm).2.2 rfl)
    (Or.inr ⟨_, rfl⟩) (Or.inr ⟨_, rfl⟩) h
  have h2 : spec.queryEscape p.Value ++ tp = spec.queryEscape q.Value ++ tq := by
    exact List.tail_eq_of_cons_eq h1.2
  have h3 := spec.append_split 38 _ _ _ _
    (fun hm => (spec.queryEscape_clean p.Value 38 hm).2.1 rfl)
    (fun hm => (spec.queryEscape_clean q.Value 38 hm).2.1 rfl) htp htq h2
  have hn := spec.queryEscape_injective _ _ h1.1
  have hv := spec.queryEscape_injective _ _ h3.1
  refine ⟨?_, h3.2⟩
  cases p; cases q
  simp only at hn hv
  rw [hn, hv]

theorem spec.queryTail_injective (ps qs : List api.Params)
    (h : spec.queryTail ps = spec.queryTail qs) : ps = qs := by
  induction ps generalizing qs with
  | nil =>
    cases qs with
    | nil => rfl
    | cons q qs => rw [spec.queryTail_nil, spec.queryTail_cons] at h; exact List.noConfusion h
  | cons p ps ih =>
    cases qs with
    | nil => rw [spec.queryTail_nil, spec.queryTail_cons] at h; exact List.noConfusion h
    | cons q qs =>
      rw [spec.queryTail_cons, spec.queryTail_cons] at h
      have h1 := spec.queryPair_append_inj p q _ _ (spec.queryTail_shape ps)
        (spec.queryTail_shape qs) (List.tail_eq_of_cons_eq h)
      rw [h1.1, ih qs h1.2]

theorem api.buildParams_cons (r : api.ApiRequest) (p : api.Params) (ps : List api.Params) :
    r.buildParams (p :: ps) = spec.queryPair p ++ spec.queryTail ps := by
  unfold api.ApiRequest.buildParams spec.queryTail
  simp only [api.ReplaceAll_plus]
  rw [List.foldl_cons, api.buildParamsStep_eq]
  simp only [if_true, Nat.zero_add]
  rw [api.buildParams_foldl_pos]

theorem api.buildParams_nil (r : api.ApiRequest) : r.buildParams [] = [] := by
  rw [api.buildParams_eq_intercalate]
  rfl

theorem api.buildParams_inj (r r' : api.ApiRequest) (ps qs : List api.Params)
    (h : r.buildParams ps = r'.buildParams qs) : ps = qs := by
  cases ps with
  | nil =>
    rw [api.buildParams_nil] at h
    exact ((api.buildParams_eq_nil_iff r' qs).mp h.symm).symm
  | cons p ps =>
    cases qs with
    | nil =>
      rw [api.buildParams_nil] at h
      exact (api.buildParams_eq_nil_iff r (p :: ps)).mp h
    | cons q qs =>
      rw [api.buildParams_cons, api.buildParams_cons] at h
      have h1 := spec.queryPair_append_inj p q _ _ (spec.queryTail_shape ps)
        (spec.queryTail_shape qs) h
      rw [h1.1, spec.queryTail_injective ps qs h1.2]

theorem spec.queryEscape_count (b : Byte) (hb : b = 38 ∨ b = 61) (s : GoString) :
    (spec.queryEscape s).count b = 0 := by
  apply List.count_eq_zero_of_not_mem
  intro hm
  have := spec.queryEscape_clean s b hm
  rcases hb with hb | hb
  · exact this.2.1 hb
  · exact this.2.2 hb

theorem spec.queryPair_count (p : api.Params) :
    (spec.queryPair p).count 38 = 0 ∧ (spec.queryPair p).count 61 = 1 := by
  rw [spec.queryPair_eq]
  constructor
  · rw [List.count_append, List.count_cons, spec.queryEscape_count 38 (Or.inl rfl),
      spec.queryEscape_count 38 (Or.inl rfl)]
    rfl
  · rw [List.count_append, List.count_cons, spec.queryEscape_count 61 (Or.inr rfl),
      spec.queryEscape_count 61 (Or.inr rfl)]
    rfl

theorem spec.queryTail_count (ps : List api.Params) :
    (spec.queryTail ps).count 38 = ps.length ∧ (spec.queryTail ps).count 61 = ps.length := by
  induction ps with
  | nil => exact ⟨rfl, rfl⟩
  | cons p ps ih =>
    rw [spec.queryTail_cons, List.count_cons, List.count_cons, List.count_append,
      List.count_append, (spec.queryPair_count p).1, (spec.queryPair_count p).2, ih.1, ih.2,
      List.length_cons]
    constructor
    · simp
    · have : ((38 : Byte) == 61) = false := by decide
      simp only [this]
      simp
      omega

/-- C13: `buildParams` is injective: two parameter lists, of arbitrary names
and values, that give the same query string are equal. The query string of a
non-empty list of `n` parameters holds exactly `n - 1` bytes `&` and exactly
`n` bytes `=`; escaping never emits `&` or `=`, and it is injective. -/
theorem api.buildParams_injective (r r' : api.ApiRequest) (ps qs : List api.Params) :
    (r.buildParams ps = r'.buildParams qs ↔ ps = qs) ∧
    (ps = [] ∨ ((r.buildParams ps).count 38 + 1 = ps.length ∧
      (r.buildParams ps).count 61 = ps.length)) ∧
    (∀ s : GoString, (38 : Byte) ∉ url.QueryEscape s ∧ (61 : Byte) ∉ url.QueryEscape s) ∧
    (∀ s t : GoString, url.QueryEscape s = url.QueryEscape t → s = t) := by
  refine ⟨⟨api.buildParams_inj r r' ps qs, ?_⟩, ?_, ?_, ?_⟩
  · intro h
    rw [h, api.buildParams_eq_intercalate, api.buildParams_eq_intercalate]
  · cases ps with
    | nil => exact Or.inl rfl
    | cons p ps =>
      refine Or.inr ?_
      rw [api.buildParams_cons, List.count_append, List.count_append,
        (spec.queryPair_count p).1, (spec.queryPair_count p).2, (spec.queryTail_count ps).1,
        (spec.queryTail_count ps).2, List.length_cons]
      omega
  · intro s
    rw [url.QueryEscape_eq]
    exact ⟨fun hm => (spec.queryEscape_clean s 38 hm).2.1 rfl,
      fun hm => (spec.queryEscape_clean s 61 hm).2.2 rfl⟩
  · intro s t h
    rw [url.QueryEscape_eq, url.QueryEscape_eq] at h
    exact spec.queryEscape_injective s t h

/-! ## The last step of buildParams -/

theorem spec.queryEscapeByte_plus (c : Byte) :
    (spec.queryEscapeByte c).count 43 = if c = 32 then 1 else 0 := by
  have key : ∀ c : Byte,
      ((spec.queryEscapeByte c).count 43 == if c = 32 then 1 else 0) = true := by
    unfold spec.queryEscapeByte
    rw [spec.unreserved_eq]
    decide!
  simpa using key c

theorem spec.queryEscape_plus (s : GoString) : (spec.queryEscape s).count 43 = s.count 32 := by
  induction s with
  | nil => rfl
  | cons c s ih =>
    unfold spec.queryEscape at ih ⊢
    rw [List.flatMap_cons, List.count_append, ih, spec.queryEscapeByte_plus, List.count_cons]
    by_cases h : c = 32
    · simp [h]; omega
    · have : (c == 32) = false := by simpa using h
      simp [h, this]

theorem spec.queryPair_plus (p : api.Params) :
    (spec.queryPair p).count 43 = p.Name.count 32 + p.Value.count 32 := by
  rw [spec.queryPair_eq, List.count_append, List.count_cons, spec.queryEscape_plus,
    spec.queryEscape_plus]
  have : ((61 : Byte) == 43) = false := by decide
  simp [this]

theorem spec.queryTail_plus (ps : List api.Params) :
    (spec.queryTail ps).count 43 = spec.spaceCount ps := by
  induction ps with
  | nil => rfl
  | cons p ps ih =>
    rw [spec.queryTail_cons, List.count_cons, List.count_append, ih, spec.queryPair_plus]
    have : ((38 : Byte) == 43) = false := by decide
    simp [this, spec.spaceCount]

theorem strings.replaceFrom_same (s : GoString) :
    strings.replaceFrom (goString "+") (goString "+") 0 s = s := by
  have e : goString "+" = [43] := by decide
  rw [e]
  induction s with
  | nil => rfl
  | cons c s ih =>
    rw [strings.replaceFrom]
    by_cases h : strings.HasPrefix (c :: s) [43] = true
    · rw [if_pos h]
      have hc : c = 43 := by
        have := (strings.HasPrefix_iff _ _).mp h
        obtain ⟨t, ht⟩ := this
        injection ht with h1 _
        exact h1.symm
      rw [hc]
      show [43] ++ strings.replaceFrom [43] [43] 0 s = 43 :: s
      rw [ih]
      rfl
    · rw [if_neg h, ih]

/-- C14: the last step of `buildParams`, which replaces the escaped form of a
space by `+`, returns every string as it is, because the escaped form of a
space is `+` already; so the result is what the loop built. The number of `+`
in the result is the number of spaces in all names and values, and a `+` of
the input is written `%2B`. -/
theorem api.buildParams_last_step (r : api.ApiRequest) (ps : List api.Params) (s : GoString) :
    url.QueryEscape (goString " ") = goString "+" ∧
    strings.ReplaceAll s (url.QueryEscape (goString " ")) (goString "+") = s ∧
    strings.replaceFrom (url.QueryEscape (goString " ")) (goString "+") 0 s = s ∧
    r.buildParams ps = (ps.foldl api.buildParamsStep (0, [])).2 ∧
    (r.buildParams ps).count 43 = spec.spaceCount ps ∧
    url.QueryEscape (goString "+") = goString "%2B" := by
  have e : url.QueryEscape (goString " ") = goString "+" := by decide
  refine ⟨e, api.ReplaceAll_plus s, ?_, ?_, ?_, by decide⟩
  · rw [e]
    exact strings.replaceFrom_same s
  · unfold api.ApiRequest.buildParams
    simp only [api.ReplaceAll_plus]
  · cases ps with
    | nil => rw [api.buildParams_nil]; rfl
    | cons p ps =>
      rw [api.buildParams_cons, List.count_append, spec.queryPair_plus, spec.queryTail_plus]
      simp [spec.spaceCount]
